import Mathlib

/-!
Verification of the availability-reconciliation engine
(`src/server/lib/availabilitySync.ts`, class `AvailabilitySync`) against its
natural-language specification.

The embedding below is a direct functional translation of the TypeScript
source.  Statuses, media records and season records mirror the entity
fields; remote services (Plex, Radarr, Sonarr) are modelled as pure probe
functions in an environment `Env`, where `none` stands for a thrown request
error and `some` for a successful response; the run-scoped caches are
threaded explicitly; every repository `save` call is recorded in a write
log; and every status assignment the engine performs is recorded in an
event trace `StatusEv` carrying the overwritten value, so that claims about
"status transitions produced by the engine" can be stated about the exact
assignments the code makes.

JavaScript aliasing detail that the model reproduces: in
`seasonExistsInSonarr` the source appends the season object it just mutated
onto `media.seasons` (`media.seasons = [...media.seasons, season]`), and the
`run()` loop may mutate that same object afterwards.  The model keeps the
season list positional: position `i` (for `i` below the original length) is
the i-th season object, and when the run loop mutates the season after the
append it writes both position `i` and the appended tail copy, exactly as
the shared reference behaves in the source.
-/

namespace AvailSync

inductive MediaStatus where
  | unknown
  | pending
  | processing
  | partiallyAvailable
  | available
  | deleted
deriving DecidableEq, Repr

inductive MediaType where
  | movie
  | tv
deriving DecidableEq, Repr

structure Season where
  seasonNumber : Nat
  status : MediaStatus
  status4k : MediaStatus
deriving DecidableEq, Repr

structure MediaRec where
  id : Nat
  tmdbId : Nat
  mediaType : MediaType
  status : MediaStatus
  status4k : MediaStatus
  serviceId : Option Nat
  serviceId4k : Option Nat
  externalServiceId : Option Nat
  externalServiceId4k : Option Nat
  externalServiceSlug : Option String
  externalServiceSlug4k : Option String
  ratingKey : Option String
  ratingKey4k : Option String
  seasons : List Season
deriving DecidableEq, Repr

structure PlexChild where
  index : Nat
deriving DecidableEq, Repr

structure SonarrStatistics where
  episodeFileCount : Nat
deriving DecidableEq, Repr

structure SonarrSeason where
  seasonNumber : Nat
  statistics : Option SonarrStatistics
deriving DecidableEq, Repr

structure SonarrSeries where
  statistics : SonarrStatistics
  seasons : List SonarrSeason
deriving DecidableEq, Repr

/-- Radarr server settings plus its `getMovie` endpoint: `none` models a
request that throws, `some hasFile` a movie response with its `hasFile`
flag. -/
structure RadarrServer where
  id : Nat
  is4k : Bool
  syncEnabled : Bool
  movieProbe : Nat → Option Bool

/-- Sonarr server settings plus its `getSeriesById` endpoint: `none` models
a request that throws, `some series` a series response. -/
structure SonarrServer where
  id : Nat
  is4k : Bool
  syncEnabled : Bool
  seriesProbe : Nat → Option SonarrSeries

/-- External world of one run: configured servers, the Plex endpoints
(`plexMetaOk k` = `getMetadata k` returns, `false` = it throws;
`plexChildrenProbe` likewise for `getChildrenMetadata`), whether the admin
user (id 1) exists, at which loop boundary a `cancel()` call is observed,
and which repository saves fail. -/
structure Env where
  radarr : List RadarrServer
  sonarr : List SonarrServer
  plexMetaOk : String → Bool
  plexChildrenProbe : String → Option (List PlexChild)
  adminExists : Bool
  cancelAt : Option Nat
  saveFails : Nat → Bool

abbrev PlexSeasonsCache := List (String × List PlexChild)
abbrev SonarrSeasonsCache := List ((Nat × Nat) × List SonarrSeason)

def plexCacheGet (c : PlexSeasonsCache) (k : String) : Option (List PlexChild) :=
  (c.find? (fun e => e.1 == k)).map (fun e => e.2)

def plexCachePut (c : PlexSeasonsCache) (k : String) (v : List PlexChild) : PlexSeasonsCache :=
  (k, v) :: c

def sonarrCacheGet (c : SonarrSeasonsCache) (k : Nat × Nat) : Option (List SonarrSeason) :=
  (c.find? (fun e => e.1 == k)).map (fun e => e.2)

def sonarrCachePut (c : SonarrSeasonsCache) (k : Nat × Nat) (v : List SonarrSeason) :
    SonarrSeasonsCache :=
  (k, v) :: c

/-- Where a status assignment landed: the media record's standard or 4k
slot, or season number `i` of the record's season list (by position). -/
inductive StatusTarget where
  | mediaStd
  | media4k
  | seasonStd (i : Nat)
  | season4k (i : Nat)
deriving DecidableEq, Repr

/-- One status assignment performed by the engine: the slot written, the
value that stood there, and the value written. -/
structure StatusEv where
  target : StatusTarget
  oldSt : MediaStatus
  newSt : MediaStatus
deriving DecidableEq, Repr

def dfltSeason : Season := ⟨0, .unknown, .unknown⟩

/-- The `media.seasons.forEach` body of `mediaUpdater` (lines 214-220):
every season whose selected variant is AVAILABLE is set to DELETED.  `i`
is the position of the first listed season, for the event trace. -/
def markSeasonsDeletedGo (is4k : Bool) : Nat → List Season → List Season × List StatusEv
  | _, [] => ([], [])
  | i, s :: rest =>
    let r := markSeasonsDeletedGo is4k (i + 1) rest
    if is4k then
      if s.status4k = .available then
        ({ s with status4k := .deleted } :: r.1, ⟨.season4k i, s.status4k, .deleted⟩ :: r.2)
      else (s :: r.1, r.2)
    else
      if s.status = .available then
        ({ s with status := .deleted } :: r.1, ⟨.seasonStd i, s.status, .deleted⟩ :: r.2)
      else (s :: r.1, r.2)

/-- `mediaUpdater` (lines 191-229): sets the selected variant's status to
DELETED, clears that variant's four linkage columns to null, marks the
selected variant of every AVAILABLE season DELETED when the record is a
series, and saves (the save failure is caught, so only the write attempt is
recorded). -/
def mediaUpdater (m : MediaRec) (is4k : Bool) : MediaRec × List MediaRec × List StatusEv :=
  let ev : StatusEv :=
    if is4k then ⟨.media4k, m.status4k, .deleted⟩ else ⟨.mediaStd, m.status, .deleted⟩
  let m1 :=
    if is4k then
      { m with status4k := .deleted, serviceId4k := none, externalServiceId4k := none,
               externalServiceSlug4k := none, ratingKey4k := none }
    else
      { m with status := .deleted, serviceId := none, externalServiceId := none,
               externalServiceSlug := none, ratingKey := none }
  let sm := if m1.mediaType = .tv then markSeasonsDeletedGo is4k 0 m1.seasons
            else (m1.seasons, [])
  let m2 := { m1 with seasons := sm.1 }
  (m2, [m2], ev :: sm.2)

/-- One Radarr server's verdict for a variant: false when the external id
is unset, the request throws, or the movie has no file (lines 249-263;
the catch at 264-281 also yields false). -/
def radarrHasFile (s : RadarrServer) (extId : Option Nat) : Bool :=
  match extId with
  | none => false
  | some e => (s.movieProbe e).getD false

/-- `mediaExistsInRadarr` (lines 231-318).  The per-server loop leaves each
variant flag true unless some matching-variant server fails the probe; the
two guarded `mediaUpdater` calls then handle a single-variant loss. -/
def mediaExistsInRadarr (radarrServers : List RadarrServer) (m : MediaRec)
    (existsInPlex existsInPlex4k : Bool) :
    MediaRec × Bool × List MediaRec × List StatusEv :=
  let existsInRadarr := radarrServers.all (fun s => s.is4k || radarrHasFile s m.externalServiceId)
  let existsInRadarr4k :=
    radarrServers.all (fun s => !s.is4k || radarrHasFile s m.externalServiceId4k)
  let step1 : MediaRec × List MediaRec × List StatusEv :=
    if !existsInRadarr && (existsInRadarr4k || existsInPlex4k) && !existsInPlex then
      if m.status ≠ .deleted ∧ m.status ≠ .unknown then mediaUpdater m false
      else (m, [], [])
    else (m, [], [])
  let m1 := step1.1
  let step2 : MediaRec × List MediaRec × List StatusEv :=
    if (existsInRadarr || existsInPlex) && !existsInRadarr4k && !existsInPlex4k then
      if m1.status4k ≠ .deleted ∧ m1.status4k ≠ .unknown then mediaUpdater m1 true
      else (m1, [], [])
    else (m1, [], [])
  (step2.1, existsInRadarr || existsInRadarr4k || existsInPlex || existsInPlex4k,
   step1.2.1 ++ step2.2.1, step1.2.2 ++ step2.2.2)

structure SonarrProbeOut where
  existsInSonarr : Bool
  existsInSonarr4k : Bool
  cache : SonarrSeasonsCache

/-- The per-server loop of `mediaExistsInSonarr` (lines 328-382): a
matching-variant flag drops to false when the external id is unset, the
request throws, or the series reports zero episode files; a successful
response caches the series' season list under `server.id-externalId`. -/
def sonarrSeriesFold (servers : List SonarrServer) (m : MediaRec) (acc : SonarrProbeOut) :
    SonarrProbeOut :=
  match servers with
  | [] => acc
  | s :: rest =>
    let acc' :=
      if s.is4k then
        match m.externalServiceId4k with
        | none => { acc with existsInSonarr4k := false }
        | some e =>
          match s.seriesProbe e with
          | none => { acc with existsInSonarr4k := false }
          | some series =>
            { acc with cache := sonarrCachePut acc.cache (s.id, e) series.seasons,
                       existsInSonarr4k :=
                         if series.statistics.episodeFileCount = 0 then false
                         else acc.existsInSonarr4k }
      else
        match m.externalServiceId with
        | none => { acc with existsInSonarr := false }
        | some e =>
          match s.seriesProbe e with
          | none => { acc with existsInSonarr := false }
          | some series =>
            { acc with cache := sonarrCachePut acc.cache (s.id, e) series.seasons,
                       existsInSonarr :=
                         if series.statistics.episodeFileCount = 0 then false
                         else acc.existsInSonarr }
    sonarrSeriesFold rest m acc'

structure SonarrExistsOut where
  media : MediaRec
  found : Bool
  cache : SonarrSeasonsCache
  writes : List MediaRec
  events : List StatusEv

/-- `mediaExistsInSonarr` (lines 320-418): the server loop, then the two
guarded single-variant `mediaUpdater` calls, then the or of the four
signals. -/
def mediaExistsInSonarr (sonarrServers : List SonarrServer) (m : MediaRec)
    (existsInPlex existsInPlex4k : Bool) (cache : SonarrSeasonsCache) : SonarrExistsOut :=
  let p := sonarrSeriesFold sonarrServers m ⟨true, true, cache⟩
  let step1 : MediaRec × List MediaRec × List StatusEv :=
    if !p.existsInSonarr && (p.existsInSonarr4k || existsInPlex4k) && !existsInPlex then
      if m.status ≠ .deleted ∧ m.status ≠ .unknown then mediaUpdater m false
      else (m, [], [])
    else (m, [], [])
  let m1 := step1.1
  let step2 : MediaRec × List MediaRec × List StatusEv :=
    if (p.existsInSonarr || existsInPlex) && !p.existsInSonarr4k && !existsInPlex4k then
      if m1.status4k ≠ .deleted ∧ m1.status4k ≠ .unknown then mediaUpdater m1 true
      else (m1, [], [])
    else (m1, [], [])
  ⟨step2.1, p.existsInSonarr || p.existsInSonarr4k || existsInPlex || existsInPlex4k,
   p.cache, step1.2.1 ++ step2.2.1, step1.2.2 ++ step2.2.2⟩

/-- The Plex half of `mediaExists` (lines 579-608): both `getMetadata`
calls sit in one try, so a throw on the standard key also skips the 4k
lookup. -/
def plexPairExists (env : Env) (m : MediaRec) : Bool × Bool :=
  match m.ratingKey with
  | some k =>
    if env.plexMetaOk k then
      (true, match m.ratingKey4k with
             | some k4 => env.plexMetaOk k4
             | none => false)
    else (false, false)
  | none =>
    (false, match m.ratingKey4k with
            | some k4 => env.plexMetaOk k4
            | none => false)

/-- `mediaExists` (lines 579-659): short-circuit when both variants are in
Plex, else defer to Radarr (movies) or Sonarr (series). -/
def mediaExists (env : Env) (radarrServers : List RadarrServer)
    (sonarrServers : List SonarrServer) (m : MediaRec) (cache : SonarrSeasonsCache) :
    SonarrExistsOut :=
  let p := plexPairExists env m
  if p.1 && p.2 then ⟨m, true, cache, [], []⟩
  else
    match m.mediaType with
    | .movie =>
      let r := mediaExistsInRadarr radarrServers m p.1 p.2
      ⟨r.1, r.2.1, cache, r.2.2.1, r.2.2.2⟩
    | .tv => mediaExistsInSonarr sonarrServers m p.1 p.2 cache

/-- The `find` predicate of `seasonExistsInSonarr` (lines 467-471): the
listing marks the season unavailable when it lists that season number with
an episode file count of exactly zero. -/
def seasonMarkedMissing (ss : List SonarrSeason) (sn : Nat) : Bool :=
  ss.any (fun x =>
    x.seasonNumber == sn &&
    (match x.statistics with
     | some st => st.episodeFileCount == 0
     | none => false))

structure SeasonFlagsOut where
  fStd : Bool
  f4k : Bool
  cache : SonarrSeasonsCache

/-- The per-server loop of `seasonExistsInSonarr` (lines 432-499): per
matching-variant server, take the cached season list or fetch it (a throw
drops the flag; an unset external id leaves the flag true), then drop the
flag when the listing marks the season unavailable. -/
def seasonSonarrFold (servers : List SonarrServer) (m : MediaRec) (sn : Nat)
    (acc : SeasonFlagsOut) : SeasonFlagsOut :=
  match servers with
  | [] => acc
  | s :: rest =>
    let acc' :=
      if s.is4k then
        match m.externalServiceId4k with
        | none => acc
        | some e =>
          match sonarrCacheGet acc.cache (s.id, e) with
          | some ss =>
            let c' := sonarrCachePut acc.cache (s.id, e) ss
            if seasonMarkedMissing ss sn then ⟨acc.fStd, false, c'⟩
            else ⟨acc.fStd, acc.f4k, c'⟩
          | none =>
            match s.seriesProbe e with
            | none => ⟨acc.fStd, false, acc.cache⟩
            | some series =>
              let c' := sonarrCachePut acc.cache (s.id, e) series.seasons
              if seasonMarkedMissing series.seasons sn then ⟨acc.fStd, false, c'⟩
              else ⟨acc.fStd, acc.f4k, c'⟩
      else
        match m.externalServiceId with
        | none => acc
        | some e =>
          match sonarrCacheGet acc.cache (s.id, e) with
          | some ss =>
            let c' := sonarrCachePut acc.cache (s.id, e) ss
            if seasonMarkedMissing ss sn then ⟨false, acc.f4k, c'⟩
            else ⟨acc.fStd, acc.f4k, c'⟩
          | none =>
            match s.seriesProbe e with
            | none => ⟨false, acc.f4k, acc.cache⟩
            | some series =>
              let c' := sonarrCachePut acc.cache (s.id, e) series.seasons
              if seasonMarkedMissing series.seasons sn then ⟨false, acc.f4k, c'⟩
              else ⟨acc.fStd, acc.f4k, c'⟩
    seasonSonarrFold rest m sn acc'

structure SeasonUpdOut where
  media : MediaRec
  found : Bool
  cache : SonarrSeasonsCache
  writes : List MediaRec
  events : List StatusEv

/-- `seasonExistsInSonarr` (lines 420-577) acting on the season at position
`i` of `m.seasons`: the server loop, the two guarded per-variant season
deletions each with its immediate parent demotion, then the append-and-save
when either variant is judged missing in Sonarr. -/
def seasonExistsInSonarr (sonarrServers : List SonarrServer) (m : MediaRec) (i : Nat)
    (seasonExistsInPlex seasonExistsInPlex4k : Bool) (cache : SonarrSeasonsCache) :
    SeasonUpdOut :=
  let s0 := m.seasons.getD i dfltSeason
  let fl := seasonSonarrFold sonarrServers m s0.seasonNumber ⟨true, true, cache⟩
  let b1 : MediaRec × Season × List StatusEv :=
    if !fl.fStd && (fl.f4k || seasonExistsInPlex4k) && !seasonExistsInPlex then
      if s0.status ≠ .deleted ∧ s0.status ≠ .unknown then
        let s1 := { s0 with status := .deleted }
        let md := { m with seasons := m.seasons.set i s1 }
        if md.status = .available then
          ({ md with status := .partiallyAvailable }, s1,
           [⟨.seasonStd i, s0.status, .deleted⟩, ⟨.mediaStd, md.status, .partiallyAvailable⟩])
        else (md, s1, [⟨.seasonStd i, s0.status, .deleted⟩])
      else (m, s0, [])
    else (m, s0, [])
  let m1 := b1.1
  let s1 := b1.2.1
  let b2 : MediaRec × Season × List StatusEv :=
    if (fl.fStd || seasonExistsInPlex) && !fl.f4k && !seasonExistsInPlex4k then
      if s1.status4k ≠ .deleted ∧ s1.status4k ≠ .unknown then
        let s2 := { s1 with status4k := .deleted }
        let md := { m1 with seasons := m1.seasons.set i s2 }
        if md.status4k = .available then
          ({ md with status4k := .partiallyAvailable }, s2,
           [⟨.season4k i, s1.status4k, .deleted⟩, ⟨.media4k, md.status4k, .partiallyAvailable⟩])
        else (md, s2, [⟨.season4k i, s1.status4k, .deleted⟩])
      else (m1, s1, [])
    else (m1, s1, [])
  let m2 := b2.1
  let s2 := b2.2.1
  let fin : MediaRec × List MediaRec :=
    if !fl.fStd || !fl.f4k then
      let m3 := { m2 with seasons := m2.seasons ++ [s2] }
      (m3, [m3])
    else (m2, [])
  ⟨fin.1, fl.fStd || fl.f4k || seasonExistsInPlex || seasonExistsInPlex4k,
   fl.cache, fin.2, b1.2.2 ++ b2.2.2⟩

structure SeasonExOut where
  media : MediaRec
  found : Bool
  plexCache : PlexSeasonsCache
  cache : SonarrSeasonsCache
  writes : List MediaRec
  events : List StatusEv

/-- `seasonExists` (lines 661-729) acting on the season at position `i`:
the cached Plex children lookups (one try block, so a throw on the standard
key skips the 4k lookup), the both-in-Plex short-circuit, then
`seasonExistsInSonarr`. -/
def seasonExists (env : Env) (sonarrServers : List SonarrServer) (m : MediaRec) (i : Nat)
    (plexCache : PlexSeasonsCache) (cache : SonarrSeasonsCache) : SeasonExOut :=
  let s0 := m.seasons.getD i dfltSeason
  let stepStd : Bool × PlexSeasonsCache × Bool :=
    match m.ratingKey with
    | none => (false, plexCache, false)
    | some k =>
      match plexCacheGet plexCache k with
      | some children =>
        (children.any (fun c => c.index == s0.seasonNumber), plexCachePut plexCache k children,
         false)
      | none =>
        match env.plexChildrenProbe k with
        | some children =>
          (children.any (fun c => c.index == s0.seasonNumber), plexCachePut plexCache k children,
           false)
        | none => (false, plexCache, true)
  let step4k : Bool × PlexSeasonsCache :=
    if stepStd.2.2 then (false, stepStd.2.1)
    else
      match m.ratingKey4k with
      | none => (false, stepStd.2.1)
      | some k4 =>
        match plexCacheGet stepStd.2.1 k4 with
        | some children =>
          (children.any (fun c => c.index == s0.seasonNumber),
           plexCachePut stepStd.2.1 k4 children)
        | none =>
          match env.plexChildrenProbe k4 with
          | some children =>
            (children.any (fun c => c.index == s0.seasonNumber),
             plexCachePut stepStd.2.1 k4 children)
          | none => (false, stepStd.2.1)
  if stepStd.1 && step4k.1 then ⟨m, true, step4k.2, cache, [], []⟩
  else
    let r := seasonExistsInSonarr sonarrServers m i stepStd.1 step4k.1 cache
    ⟨r.media, r.found, step4k.2, r.cache, r.writes, r.events⟩

/-- The whole-record deletion block of `run()` (lines 58-87): unless both
statuses are DELETED or both are UNKNOWN, rewrite each status (UNKNOWN
stays UNKNOWN, anything else becomes DELETED) and null every linkage
column of both variants. -/
def mediaMissingUpdate (m : MediaRec) : MediaRec × List StatusEv :=
  if (m.status ≠ .deleted ∨ m.status4k ≠ .deleted) ∧
     (m.status ≠ .unknown ∨ m.status4k ≠ .unknown) then
    let ns := if m.status ≠ .unknown then MediaStatus.deleted else .unknown
    let ns4 := if m.status4k ≠ .unknown then MediaStatus.deleted else .unknown
    ({ m with status := ns, status4k := ns4,
              serviceId := none, serviceId4k := none,
              externalServiceId := none, externalServiceId4k := none,
              externalServiceSlug := none, externalServiceSlug4k := none,
              ratingKey := none, ratingKey4k := none },
     [⟨.mediaStd, m.status, ns⟩, ⟨.media4k, m.status4k, ns4⟩])
  else (m, [])

structure SeasonLoopSt where
  media : MediaRec
  didDeleteSeasons : Bool
  plexCache : PlexSeasonsCache
  cache : SonarrSeasonsCache
  writes : List MediaRec
  events : List StatusEv

/-- One iteration of the `run()` season loop (lines 90-146) for the season
at position `i`: the whole-show cascade when the record is gone, otherwise
the per-season existence check with the follow-up deletion (which also
rewrites the appended alias of the season), then the parent demotion block
that runs whenever a season deletion has occurred. -/
def seasonIter (env : Env) (sonarrServers : List SonarrServer) (mediaExistsB : Bool)
    (st : SeasonLoopSt) (i : Nat) : SeasonLoopSt :=
  let m := st.media
  let s0 := m.seasons.getD i dfltSeason
  let afterMain : SeasonLoopSt :=
    if !mediaExistsB ∧
       ((s0.status ≠ .deleted ∨ s0.status4k ≠ .deleted) ∧
        (s0.status ≠ .unknown ∨ s0.status4k ≠ .unknown)) then
      let s1 := { s0 with status := .deleted, status4k := .deleted }
      { st with media := { m with seasons := m.seasons.set i s1 },
                events := st.events ++
                  [⟨.seasonStd i, s0.status, .deleted⟩, ⟨.season4k i, s0.status4k, .deleted⟩] }
    else
      let r := seasonExists env sonarrServers m i st.plexCache st.cache
      if r.found then
        { st with media := r.media, plexCache := r.plexCache, cache := r.cache,
                  writes := st.writes ++ r.writes, events := st.events ++ r.events }
      else
        let m1 := r.media
        let sCur := m1.seasons.getD i dfltSeason
        let upd : MediaRec × List StatusEv :=
          if (sCur.status ≠ .deleted ∨ sCur.status4k ≠ .deleted) ∧
             (sCur.status ≠ .unknown ∨ sCur.status4k ≠ .unknown) then
            let s2 := { sCur with status := .deleted, status4k := .deleted }
            ({ m1 with seasons := (m1.seasons.set i s2).set (m1.seasons.length - 1) s2 },
             [⟨.seasonStd i, sCur.status, .deleted⟩, ⟨.season4k i, sCur.status4k, .deleted⟩])
          else (m1, [])
        { media := upd.1, didDeleteSeasons := true, plexCache := r.plexCache, cache := r.cache,
          writes := st.writes ++ r.writes, events := st.events ++ r.events ++ upd.2 }
  if afterMain.didDeleteSeasons then
    let m2 := afterMain.media
    if m2.status = .available ∨ m2.status4k = .available then
      let d1 : MediaRec × List StatusEv :=
        if m2.status = .available then
          ({ m2 with status := .partiallyAvailable },
           [⟨.mediaStd, m2.status, .partiallyAvailable⟩])
        else (m2, [])
      let d2 : MediaRec × List StatusEv :=
        if d1.1.status4k = .available then
          ({ d1.1 with status4k := .partiallyAvailable },
           [⟨.media4k, d1.1.status4k, .partiallyAvailable⟩])
        else (d1.1, [])
      { afterMain with media := d2.1, events := afterMain.events ++ d1.2 ++ d2.2 }
    else afterMain
  else afterMain

inductive RunErr where
  | jobAborted
  | saveFail
deriving DecidableEq, Repr

structure ProcOut where
  media : MediaRec
  plexCache : PlexSeasonsCache
  cache : SonarrSeasonsCache
  writes : List MediaRec
  events : List StatusEv
  err : Option RunErr
deriving Repr

/-- The body of the `run()` record loop (lines 52-151) for one media
record: the existence resolution, the whole-record deletion block, the
season loop for series, and the final save when the record was missing or
a season was deleted.  That final save is the only one not wrapped in its
own try, so its failure is the error that escapes to the run level. -/
def processMedia (env : Env) (radarrServers : List RadarrServer)
    (sonarrServers : List SonarrServer) (m0 : MediaRec) (pc : PlexSeasonsCache)
    (sc : SonarrSeasonsCache) : ProcOut :=
  let ex := mediaExists env radarrServers sonarrServers m0 sc
  let upd := if !ex.found then mediaMissingUpdate ex.media else (ex.media, [])
  let m2 := upd.1
  let lp : SeasonLoopSt :=
    if m2.mediaType = .tv then
      (List.range m2.seasons.length).foldl (seasonIter env sonarrServers ex.found)
        ⟨m2, false, pc, ex.cache, [], []⟩
    else ⟨m2, false, pc, ex.cache, [], []⟩
  let doSave := !ex.found || lp.didDeleteSeasons
  ⟨lp.media, lp.plexCache, lp.cache,
   ex.writes ++ lp.writes ++ (if doSave then [lp.media] else []),
   ex.events ++ upd.2 ++ lp.events,
   if doSave && env.saveFails lp.media.id then some .saveFail else none⟩

/-- The pagination filter of `loadAvailableMediaPaginated` (lines 172-177). -/
def eligibleMedia (m : MediaRec) : Bool :=
  m.status == .available || m.status == .partiallyAvailable ||
  m.status4k == .available || m.status4k == .partiallyAvailable

def pageSize : Nat := 50

/-- A repository save: replace the row with the record's id. -/
def dbSave (db : List MediaRec) (m : MediaRec) : List MediaRec :=
  db.map (fun r => if r.id = m.id then m else r)

/-- Apply a write log to the table, dropping the saves that fail. -/
def applyWrites (env : Env) (db : List MediaRec) (ws : List MediaRec) : List MediaRec :=
  ws.foldl (fun d w => if env.saveFails w.id then d else dbSave d w) db

structure LoopSt where
  db : List MediaRec
  count : Nat
  plexCache : PlexSeasonsCache
  cache : SonarrSeasonsCache
  writes : List MediaRec
  events : List StatusEv
  attempted : List Nat

/-- Whether the cooperative `cancel()` has been observed by the time the
loop reaches record number `n` (0-based). -/
def cancelHit (env : Env) (n : Nat) : Bool :=
  match env.cancelAt with
  | some k => k ≤ n
  | none => false

/-- One yielded record of the `run()` loop: the cancellation check at the
loop boundary (lines 48-50), then the record body; its writes are applied
to the table. -/
def procRecord (env : Env) (rs : List RadarrServer) (ss : List SonarrServer)
    (st : LoopSt) (m : MediaRec) : LoopSt × Option RunErr :=
  if cancelHit env st.count then (st, some .jobAborted)
  else
    let r := processMedia env rs ss m st.plexCache st.cache
    ({ st with db := applyWrites env st.db r.writes,
               count := st.count + 1,
               plexCache := r.plexCache, cache := r.cache,
               writes := st.writes ++ r.writes,
               events := st.events ++ r.events,
               attempted := st.attempted ++ [m.id] }, r.err)

/-- The records of one fetched page, processed in order; the first error
(abort or top-level save failure) stops the run. -/
def procPage (env : Env) (rs : List RadarrServer) (ss : List SonarrServer)
    (st : LoopSt) (page : List MediaRec) : LoopSt × Option RunErr :=
  match page with
  | [] => (st, none)
  | m :: rest =>
    let r := procRecord env rs ss st m
    match r.2 with
    | some e => (r.1, some e)
    | none => procPage env rs ss r.1 rest

theorem dbSave_length (db : List MediaRec) (m : MediaRec) :
    (dbSave db m).length = db.length := by
  simp [dbSave]

theorem applyWrites_length (env : Env) (db : List MediaRec) (ws : List MediaRec) :
    (applyWrites env db ws).length = db.length := by
  induction ws generalizing db with
  | nil => rfl
  | cons w rest ih =>
    simp only [applyWrites, List.foldl_cons] at *
    split <;> simp [ih, dbSave_length]

theorem procRecord_db_length (env : Env) (rs : List RadarrServer) (ss : List SonarrServer)
    (st : LoopSt) (m : MediaRec) :
    (procRecord env rs ss st m).1.db.length = st.db.length := by
  unfold procRecord
  split
  · rfl
  · simp [applyWrites_length]

theorem procPage_db_length (env : Env) (rs : List RadarrServer) (ss : List SonarrServer)
    (st : LoopSt) (page : List MediaRec) :
    (procPage env rs ss st page).1.db.length = st.db.length := by
  induction page generalizing st with
  | nil => rfl
  | cons m rest ih =>
    unfold procPage
    cases h : (procRecord env rs ss st m).2 with
    | some e => simp [h, procRecord_db_length]
    | none => simp [h, ih, procRecord_db_length]

/-- The do-while of `loadAvailableMediaPaginated` (lines 181-188)
interleaved with the record loop: fetch the page at `offset` from the
current table, process it, advance the offset by the page size, stop on an
empty page or on the first error. -/
def pageLoop (env : Env) (rs : List RadarrServer) (ss : List SonarrServer)
    (st : LoopSt) (offset : Nat) : LoopSt × Option RunErr :=
  let page := ((st.db.filter eligibleMedia).drop offset).take pageSize
  let r := procPage env rs ss st page
  match r.2 with
  | some e => (r.1, some e)
  | none =>
    if hp : page = [] then (r.1, none)
    else pageLoop env rs ss r.1 (offset + pageSize)
termination_by st.db.length + pageSize - offset
decreasing_by
  have hlen : (procPage env rs ss st
      (((st.db.filter eligibleMedia).drop offset).take pageSize)).1.db.length
      = st.db.length := procPage_db_length ..
  have hne : ((st.db.filter eligibleMedia).drop offset) ≠ [] := by
    intro h
    exact hp (by simp [page, h])
  have hlt : offset < (st.db.filter eligibleMedia).length := by
    by_contra hge
    exact hne (List.drop_eq_nil_of_le (by omega))
  have hfil : (st.db.filter eligibleMedia).length ≤ st.db.length :=
    List.length_filter_le _ _
  simp only [hlen, pageSize] at *
  omega

structure AppState where
  running : Bool
  plexClient : Bool
deriving DecidableEq, Repr

inductive RunOutcome where
  | completed
  | errored (e : RunErr)
deriving DecidableEq, Repr

structure RunResult where
  state : AppState
  db : List MediaRec
  writes : List MediaRec
  events : List StatusEv
  attempted : List Nat
  outcome : RunOutcome
deriving Repr

/-- `run()` (lines 24-163): set the running flag, reset the caches, filter
the sync-enabled servers, initialise the Plex client (kept from a previous
run when the admin user is gone), return early when no client exists, then
the paginated record loop; any thrown error is caught and logged at error
severity (the `errored` outcome), and the `finally` always clears the
running flag. -/
def runAvail (env : Env) (st : AppState) (db : List MediaRec) : RunResult :=
  let rs := env.radarr.filter (fun s => s.syncEnabled)
  let ss := env.sonarr.filter (fun s => s.syncEnabled)
  let plexClient := if env.adminExists then true else st.plexClient
  if !plexClient then
    ⟨⟨false, plexClient⟩, db, [], [], [], .completed⟩
  else
    let r := pageLoop env rs ss ⟨db, 0, [], [], [], [], []⟩ 0
    ⟨⟨false, plexClient⟩, r.1.db, r.1.writes, r.1.events, r.1.attempted,
     match r.2 with
     | none => .completed
     | some e => .errored e⟩

/-! ## Concrete scenarios used by closed counterexamples and witnesses -/

/-- A movie present in Plex under both rating keys: processing it touches
nothing. -/
def presentMovie (n : Nat) : MediaRec :=
  { id := n, tmdbId := 100 + n, mediaType := .movie
    status := .available, status4k := .available
    serviceId := none, serviceId4k := none
    externalServiceId := none, externalServiceId4k := none
    externalServiceSlug := none, externalServiceSlug4k := none
    ratingKey := some "k", ratingKey4k := some "j"
    seasons := [] }

/-- An environment in which every Plex metadata lookup succeeds and no
fulfillment servers are configured. -/
def envAllPresent : Env :=
  { radarr := [], sonarr := []
    plexMetaOk := fun _ => true
    plexChildrenProbe := fun _ => some []
    adminExists := true, cancelAt := none, saveFails := fun _ => false }

/-! ## C7: the run guard is never consulted -/

/-- C7 counterexample: with the process-wide running guard already set
(`running = true`), a call to `run()` is not rejected: it processes the
eligible record (its id is attempted) and completes normally, instead of
failing fast without processing any records.  `run()` assigns
`this.running = true` at entry but never tests it. -/
theorem C7_counterexample :
    (runAvail envAllPresent ⟨true, true⟩ [presentMovie 1]).attempted = [1] ∧
    (runAvail envAllPresent ⟨true, true⟩ [presentMovie 1]).outcome = .completed := by
  constructor <;> (simp only [runAvail]; rw [pageLoop, pageLoop]; decide)

/-- C7 amended: `run()` does not enforce mutual exclusion.  It never reads
the running guard at entry - a call with the guard already set behaves
exactly like a call with it clear - and every completion path leaves the
guard cleared (so the flag only serves cooperative cancellation, not
reentrancy rejection). -/
theorem C7_guard_not_consulted :
    ∀ (env : Env) (db : List MediaRec),
      (∀ pc : Bool, runAvail env ⟨true, pc⟩ db = runAvail env ⟨false, pc⟩ db) ∧
      ∀ st : AppState, (runAvail env st db).state.running = false := by
  intro env db
  refine ⟨fun pc => rfl, fun st => ?_⟩
  unfold runAvail
  cases env.adminExists <;> cases st.plexClient <;> rfl

/-! ## C10: the missing-admin early return -/

/-- Environment with the admin user (id 1) deleted. -/
def envNoAdmin : Env :=
  { envAllPresent with adminExists := false }

/-- C10 counterexample: the Plex client is an instance field that
`initPlexClient` never clears, so when the admin user is gone but a client
survives from an earlier run, `run()` does not return early: it loads and
processes the eligible record. -/
theorem C10_counterexample :
    (runAvail envNoAdmin ⟨false, true⟩ [presentMovie 1]).attempted = [1] := by
  simp only [runAvail]
  rw [pageLoop, pageLoop]
  decide

/-- C10 amended: if no admin user exists when `run()` is called and no Plex
client was retained from a previous run, the run returns before loading any
media records - nothing is attempted, no writes are issued, the table is
untouched, the outcome is not an error, and the running guard is released
on exit.  (With a retained client the run proceeds instead.) -/
theorem C10_no_admin_early_return (env : Env) (st : AppState) (db : List MediaRec)
    (h1 : env.adminExists = false) (h2 : st.plexClient = false) :
    (runAvail env st db).attempted = [] ∧ (runAvail env st db).writes = [] ∧
    (runAvail env st db).db = db ∧ (runAvail env st db).outcome = .completed ∧
    (runAvail env st db).state.running = false := by
  simp [runAvail, h1, h2]

/-- C10 witness: the amended theorem applied to a concrete fresh state. -/
theorem C10_no_admin_early_return_witness :
    (runAvail envNoAdmin ⟨false, false⟩ [presentMovie 1]).attempted = [] ∧
    (runAvail envNoAdmin ⟨false, false⟩ [presentMovie 1]).writes = [] ∧
    (runAvail envNoAdmin ⟨false, false⟩ [presentMovie 1]).db = [presentMovie 1] ∧
    (runAvail envNoAdmin ⟨false, false⟩ [presentMovie 1]).outcome = .completed ∧
    (runAvail envNoAdmin ⟨false, false⟩ [presentMovie 1]).state.running = false :=
  C10_no_admin_early_return envNoAdmin ⟨false, false⟩ [presentMovie 1] rfl rfl

/-! ## C8 and C9: cancellation and per-record failure behaviour -/

theorem processMedia_err_none (env : Env) (rs : List RadarrServer) (ss : List SonarrServer)
    (m : MediaRec) (pc : PlexSeasonsCache) (sc : SonarrSeasonsCache)
    (h : ∀ n, env.saveFails n = false) :
    (processMedia env rs ss m pc sc).err = none := by
  simp only [processMedia]
  simp [h]

theorem procPage_cancel (env : Env) (rs : List RadarrServer) (ss : List SonarrServer)
    (st : LoopSt) (page : List MediaRec) (k : Nat)
    (hc : env.cancelAt = some k) (hs : ∀ n, env.saveFails n = false)
    (hk1 : st.count ≤ k) (hk2 : k < st.count + page.length) :
    (procPage env rs ss st page).2 = some .jobAborted ∧
    (procPage env rs ss st page).1.attempted.length = st.attempted.length + (k - st.count) := by
  induction page generalizing st with
  | nil => simp at hk2; omega
  | cons m rest ih =>
    by_cases hq : k ≤ st.count
    · have hkc : k = st.count := by omega
      have hhit : cancelHit env st.count = true := by
        simp [cancelHit, hc, hkc]
      simp [procPage, procRecord, hhit]
      omega
    · have hhit : cancelHit env st.count = false := by
        simp [cancelHit, hc]
        omega
      have herr := processMedia_err_none env rs ss m st.plexCache st.cache hs
      simp only [procPage, procRecord, hhit, Bool.false_eq_true, if_false, herr]
      have step := ih
        { db := applyWrites env st.db (processMedia env rs ss m st.plexCache st.cache).writes
          count := st.count + 1
          plexCache := (processMedia env rs ss m st.plexCache st.cache).plexCache
          cache := (processMedia env rs ss m st.plexCache st.cache).cache
          writes := st.writes ++ (processMedia env rs ss m st.plexCache st.cache).writes
          events := st.events ++ (processMedia env rs ss m st.plexCache st.cache).events
          attempted := st.attempted ++ [m.id] }
        (by show st.count + 1 ≤ k; omega)
        (by show k < st.count + 1 + rest.length; simp at hk2; omega)
      refine ⟨step.1, ?_⟩
      rw [step.2]
      simp
      omega

/-- C8 amended: cancellation is cooperative and observed at the loop
boundary - the in-flight record finishes, exactly the records before the
cancellation point are attempted, no further records start, and the guard
is released - but the aborted run does not end with a non-error outcome:
the loop throws a `Job aborted` error that the run-level catch logs at
error severity, exactly like a failure (hypotheses: cancellation strikes
within the first fetched page, the admin exists, and no save fails, so that
no other error can race the abort). -/
theorem pageLoop_err (env : Env) (rs : List RadarrServer) (ss : List SonarrServer)
    (st : LoopSt) (offset : Nat) (e : RunErr)
    (h : (procPage env rs ss st
            (((st.db.filter eligibleMedia).drop offset).take pageSize)).2 = some e) :
    pageLoop env rs ss st offset =
      ((procPage env rs ss st
          (((st.db.filter eligibleMedia).drop offset).take pageSize)).1, some e) := by
  rw [pageLoop]
  simp [h]

theorem C8_cancellation (env : Env) (st : AppState) (db : List MediaRec) (k : Nat)
    (hc : env.cancelAt = some k) (hs : ∀ n, env.saveFails n = false)
    (ha : env.adminExists = true)
    (hk : k < ((db.filter eligibleMedia).take pageSize).length) :
    (runAvail env st db).outcome = .errored .jobAborted ∧
    (runAvail env st db).attempted.length = k ∧
    (runAvail env st db).state.running = false := by
  have hpage := procPage_cancel env (env.radarr.filter fun s => s.syncEnabled)
    (env.sonarr.filter fun s => s.syncEnabled)
    ⟨db, 0, [], [], [], [], []⟩ ((db.filter eligibleMedia).take pageSize) k hc hs
    (Nat.zero_le _) (by simpa using hk)
  have hloop := pageLoop_err env (env.radarr.filter fun s => s.syncEnabled)
    (env.sonarr.filter fun s => s.syncEnabled) ⟨db, 0, [], [], [], [], []⟩ 0 .jobAborted
    (by simpa using hpage.1)
  simp only [runAvail, ha, if_true, Bool.not_true, Bool.false_eq_true, if_false, hloop]
  refine ⟨trivial, ?_, trivial⟩
  have h2 := hpage.2
  simp at h2 ⊢
  omega

/-- Environment in which `cancel()` is observed before the second record. -/
def envC8 : Env :=
  { envAllPresent with cancelAt := some 1 }

/-- C8 counterexample: a cancelled run does not complete with an
aborted-but-not-error outcome.  The abort is a thrown `Job aborted` error
caught by the same catch block as any failure and logged at error
severity: the run outcome is an error carrying the abort. -/
theorem C8_counterexample :
    (runAvail envC8 ⟨false, false⟩ [presentMovie 1, presentMovie 2]).outcome
      = .errored .jobAborted ∧
    (runAvail envC8 ⟨false, false⟩ [presentMovie 1, presentMovie 2]).attempted = [1] := by
  constructor <;> (simp only [runAvail]; rw [pageLoop]; decide)

/-- C8 witness: the amended theorem applied to a concrete two-record run
cancelled after the first record. -/
theorem C8_cancellation_witness :
    (runAvail envC8 ⟨false, false⟩ [presentMovie 1, presentMovie 2]).outcome
      = .errored .jobAborted ∧
    (runAvail envC8 ⟨false, false⟩ [presentMovie 1, presentMovie 2]).attempted.length = 1 ∧
    (runAvail envC8 ⟨false, false⟩ [presentMovie 1, presentMovie 2]).state.running = false :=
  C8_cancellation envC8 ⟨false, false⟩ [presentMovie 1, presentMovie 2] 1 rfl
    (fun _ => rfl) rfl (by decide)

/-- C9 amended: there is no per-record isolation.  Failed remote probes are
caught inside the helper functions and folded into absence, so with no save
failures a record never raises (first conjunct); but the one unguarded
per-record operation - the top-level repository save - raises to the
run-level catch, which ends the run: the remaining records are never
attempted and the run reports the record's error (second conjunct). -/
theorem C9_record_failure_ends_run :
    (∀ (env : Env) (rs : List RadarrServer) (ss : List SonarrServer) (m : MediaRec)
       (pc : PlexSeasonsCache) (sc : SonarrSeasonsCache),
       (∀ n, env.saveFails n = false) → (processMedia env rs ss m pc sc).err = none) ∧
    (∀ (env : Env) (st : AppState) (a b : MediaRec) (e : RunErr),
       env.adminExists = true → env.cancelAt = none →
       eligibleMedia a = true → eligibleMedia b = true →
       (processMedia env (env.radarr.filter fun s => s.syncEnabled)
           (env.sonarr.filter fun s => s.syncEnabled) a [] []).err = some e →
       (runAvail env st [a, b]).attempted = [a.id] ∧
       (runAvail env st [a, b]).outcome = .errored e) := by
  refine ⟨processMedia_err_none, ?_⟩
  intro env st a b e ha hc hea heb herr
  have hfil : List.filter eligibleMedia [a, b] = [a, b] := by
    simp [List.filter, hea, heb]
  have hhit : cancelHit env 0 = false := by simp [cancelHit, hc]
  have hpp : (procPage env (env.radarr.filter fun s => s.syncEnabled)
      (env.sonarr.filter fun s => s.syncEnabled)
      (⟨[a, b], 0, [], [], [], [], []⟩ : LoopSt)
      ((((⟨[a, b], 0, [], [], [], [], []⟩ : LoopSt).db.filter
          eligibleMedia).drop 0).take pageSize)).2 = some e ∧
      (procPage env (env.radarr.filter fun s => s.syncEnabled)
        (env.sonarr.filter fun s => s.syncEnabled)
        (⟨[a, b], 0, [], [], [], [], []⟩ : LoopSt)
        ((((⟨[a, b], 0, [], [], [], [], []⟩ : LoopSt).db.filter
            eligibleMedia).drop 0).take pageSize)).1.attempted = [a.id] := by
    show (procPage _ _ _ _ (((([a, b] : List MediaRec).filter
      eligibleMedia).drop 0).take pageSize)).2 = some e ∧ _
    rw [hfil]
    simp only [List.drop_zero]
    have htake : List.take pageSize [a, b] = [a, b] := rfl
    rw [htake]
    simp only [procPage, procRecord, hhit, Bool.false_eq_true, if_false, herr]
    simp
  have hloop := pageLoop_err env (env.radarr.filter fun s => s.syncEnabled)
    (env.sonarr.filter fun s => s.syncEnabled) ⟨[a, b], 0, [], [], [], [], []⟩ 0 e hpp.1
  simp only [runAvail, ha, if_true, Bool.not_true, Bool.false_eq_true, if_false, hloop]
  exact ⟨hpp.2, trivial⟩

/-- Environment whose Radarr probes always fail and in which the save of
the record with id 1 fails. -/
def envC9 : Env :=
  { radarr := [⟨1, false, true, fun _ => none⟩, ⟨2, true, true, fun _ => none⟩]
    sonarr := []
    plexMetaOk := fun _ => true
    plexChildrenProbe := fun _ => some []
    adminExists := true, cancelAt := none, saveFails := fun n => n == 1 }

/-- A movie with no Plex rating keys, judged missing everywhere under
`envC9`. -/
def missingMovie : MediaRec :=
  { presentMovie 1 with ratingKey := none, ratingKey4k := none }

/-- C9 counterexample: an unexpected per-record failure (the top-level save
of record 1 raising) is not caught and skipped - the run ends at that
record with an error outcome, record 2 is never attempted, and the table
keeps both rows unchanged. -/
theorem C9_counterexample :
    (runAvail envC9 ⟨false, false⟩ [missingMovie, presentMovie 2]).attempted = [1] ∧
    (runAvail envC9 ⟨false, false⟩ [missingMovie, presentMovie 2]).outcome
      = .errored .saveFail ∧
    (runAvail envC9 ⟨false, false⟩ [missingMovie, presentMovie 2]).db
      = [missingMovie, presentMovie 2] := by
  refine ⟨?_, ?_, ?_⟩ <;> (simp only [runAvail]; rw [pageLoop]; decide)

/-- C9 witness: the amended theorem applied at concrete inputs. -/
theorem C9_record_failure_ends_run_witness :
    (processMedia envAllPresent [] [] (presentMovie 3) [] []).err = none ∧
    ((runAvail envC9 ⟨false, false⟩ [missingMovie, presentMovie 2]).attempted
        = [missingMovie.id] ∧
     (runAvail envC9 ⟨false, false⟩ [missingMovie, presentMovie 2]).outcome
        = .errored .saveFail) :=
  ⟨C9_record_failure_ends_run.1 envAllPresent [] [] (presentMovie 3) [] [] (fun _ => rfl),
   C9_record_failure_ends_run.2 envC9 ⟨false, false⟩ missingMovie (presentMovie 2) .saveFail
     rfl rfl (by decide) (by decide) (by decide)⟩

/-! ## C6: no-op writes and idempotence -/

/-- The persisted state of a record: every scalar column plus the set of
season rows.  The season list is deduplicated because the source appends
the same season entity object onto `media.seasons` before saving
(`media.seasons = [...media.seasons, season]`), and saving the same row
twice leaves the table unchanged. -/
def persistedStateEq (a b : MediaRec) : Bool :=
  a.id == b.id && a.mediaType == b.mediaType &&
  a.status == b.status && a.status4k == b.status4k &&
  a.serviceId == b.serviceId && a.serviceId4k == b.serviceId4k &&
  a.externalServiceId == b.externalServiceId &&
  a.externalServiceId4k == b.externalServiceId4k &&
  a.externalServiceSlug == b.externalServiceSlug &&
  a.externalServiceSlug4k == b.externalServiceSlug4k &&
  a.ratingKey == b.ratingKey && a.ratingKey4k == b.ratingKey4k &&
  a.seasons.dedup == b.seasons.dedup

/-- Environment for the C6 counterexample: the series exists (one episode
file) but season 1 reports zero episode files in Sonarr, and the Plex
children listing is empty. -/
def envC6 : Env :=
  { radarr := []
    sonarr := [⟨1, false, true,
      fun e => if e = 7 then some ⟨⟨1⟩, [⟨1, some ⟨0⟩⟩]⟩ else none⟩]
    plexMetaOk := fun k => k == "a"
    plexChildrenProbe := fun _ => some []
    adminExists := true, cancelAt := none, saveFails := fun _ => false }

/-- A series whose only season is already DELETED in both variants: a run
changes nothing about it. -/
def mC6 : MediaRec :=
  { id := 1, tmdbId := 10, mediaType := .tv
    status := .partiallyAvailable, status4k := .unknown
    serviceId := none, serviceId4k := none
    externalServiceId := some 7, externalServiceId4k := none
    externalServiceSlug := none, externalServiceSlug4k := none
    ratingKey := some "a", ratingKey4k := none
    seasons := [⟨1, .deleted, .deleted⟩] }

/-- `mC6` after one run: the only difference is the duplicated season
entry appended by `seasonExistsInSonarr` before its save. -/
def mC6b : MediaRec :=
  { mC6 with seasons := [⟨1, .deleted, .deleted⟩, ⟨1, .deleted, .deleted⟩] }

/-- C6 counterexample: a run over `[mC6]` issues one save although the
computed state is identical to the loaded state (statuses, linkage and the
set of season rows are unchanged - `seasonExistsInSonarr` saves whenever a
season variant is judged missing in Sonarr, even with nothing to change),
and the second consecutive run under the same external signals issues two
further writes instead of zero. -/
theorem C6_counterexample :
    (runAvail envC6 ⟨false, false⟩ [mC6]).writes.length = 1 ∧
    persistedStateEq mC6 ((runAvail envC6 ⟨false, false⟩ [mC6]).writes.getD 0 mC6) = true ∧
    (runAvail envC6 ⟨false, false⟩ [mC6]).db = [mC6b] ∧
    (runAvail envC6 ⟨false, false⟩ [mC6b]).writes.length = 2 := by
  refine ⟨?_, ?_, ?_, ?_⟩ <;> (simp only [runAvail]; rw [pageLoop, pageLoop]; decide)

/-- The run-scoped Plex children cache only ever holds responses of
`getChildrenMetadata`. -/
def plexCacheConsistent (env : Env) (pc : PlexSeasonsCache) : Prop :=
  ∀ kk v, plexCacheGet pc kk = some v → env.plexChildrenProbe kk = some v

theorem plexCacheGet_put (pc : PlexSeasonsCache) (kk k : String) (v : List PlexChild) :
    plexCacheGet (plexCachePut pc k v) kk =
      if k = kk then some v else plexCacheGet pc kk := by
  simp only [plexCacheGet, plexCachePut, List.find?]
  by_cases h : k = kk
  · simp [h]
  · simp [h, beq_eq_false_iff_ne.mpr h]

theorem plexCacheConsistent_put (env : Env) (pc : PlexSeasonsCache) (k : String)
    (v : List PlexChild) (hpc : plexCacheConsistent env pc)
    (hv : env.plexChildrenProbe k = some v) :
    plexCacheConsistent env (plexCachePut pc k v) := by
  intro kk w hw
  rw [plexCacheGet_put] at hw
  by_cases h : k = kk
  · simp [h] at hw
    rw [← hw, ← h]
    exact hv
  · exact hpc kk w (by simpa [h] using hw)

theorem seasonExists_present (env : Env) (ss : List SonarrServer) (m : MediaRec) (i : Nat)
    (pc : PlexSeasonsCache) (sc : SonarrSeasonsCache) (k k4 : String)
    (l l4 : List PlexChild)
    (hk : m.ratingKey = some k) (hk4 : m.ratingKey4k = some k4)
    (hc : env.plexChildrenProbe k = some l) (hc4 : env.plexChildrenProbe k4 = some l4)
    (hall : ∀ s ∈ m.seasons, l.any (fun c => c.index == s.seasonNumber) = true)
    (hall4 : ∀ s ∈ m.seasons, l4.any (fun c => c.index == s.seasonNumber) = true)
    (hi : i < m.seasons.length) (hcons : plexCacheConsistent env pc) :
    ∃ pc', seasonExists env ss m i pc sc = ⟨m, true, pc', sc, [], []⟩ ∧
      plexCacheConsistent env pc' := by
  have hmem : m.seasons.getD i dfltSeason ∈ m.seasons := by
    rw [List.getD_eq_getElem _ _ hi]
    exact List.getElem_mem hi
  have hfl : l.any (fun c => c.index == (m.seasons.getD i dfltSeason).seasonNumber) = true :=
    hall _ hmem
  have hfl4 : l4.any (fun c => c.index == (m.seasons.getD i dfltSeason).seasonNumber) = true :=
    hall4 _ hmem
  simp only [List.getD_eq_getElem?_getD] at hfl hfl4
  have hcons1 : plexCacheConsistent env (plexCachePut pc k l) :=
    plexCacheConsistent_put env pc k l hcons hc
  refine ⟨plexCachePut (plexCachePut pc k l) k4 l4, ?_,
    plexCacheConsistent_put env _ k4 l4 hcons1 hc4⟩
  unfold seasonExists
  rw [hk, hk4]
  cases hg : plexCacheGet pc k with
  | some v =>
    obtain rfl := (Option.some_inj.mp ((hcons k v hg).symm.trans hc)).symm
    cases hg4 : plexCacheGet (plexCachePut pc k l) k4 with
    | some w =>
      obtain rfl := (Option.some_inj.mp ((hcons1 k4 w hg4).symm.trans hc4)).symm
      simp [hg, hg4, hfl, hfl4]
    | none => simp [hg, hg4, hc4, hfl, hfl4]
  | none =>
    cases hg4 : plexCacheGet (plexCachePut pc k l) k4 with
    | some w =>
      obtain rfl := (Option.some_inj.mp ((hcons1 k4 w hg4).symm.trans hc4)).symm
      simp [hg, hc, hg4, hfl, hfl4]
    | none => simp [hg, hc, hg4, hc4, hfl, hfl4]

theorem seasonIter_present (env : Env) (ss : List SonarrServer) (m : MediaRec)
    (st : SeasonLoopSt) (i : Nat) (k k4 : String) (l l4 : List PlexChild)
    (hk : m.ratingKey = some k) (hk4 : m.ratingKey4k = some k4)
    (hc : env.plexChildrenProbe k = some l) (hc4 : env.plexChildrenProbe k4 = some l4)
    (hall : ∀ s ∈ m.seasons, l.any (fun c => c.index == s.seasonNumber) = true)
    (hall4 : ∀ s ∈ m.seasons, l4.any (fun c => c.index == s.seasonNumber) = true)
    (hi : i < m.seasons.length)
    (hmed : st.media = m) (hdd : st.didDeleteSeasons = false)
    (hcons : plexCacheConsistent env st.plexCache) :
    ∃ pc', seasonIter env ss true st i = { st with plexCache := pc' } ∧
      plexCacheConsistent env pc' := by
  obtain ⟨pc', hse, hcons'⟩ := seasonExists_present env ss m i st.plexCache st.cache
    k k4 l l4 hk hk4 hc hc4 hall hall4 hi hcons
  refine ⟨pc', ?_, hcons'⟩
  unfold seasonIter
  simp only [hmed, hse, hdd]
  simp

theorem foldl_seasonIter_present (env : Env) (ss : List SonarrServer) (m : MediaRec)
    (idxs : List Nat) (st : SeasonLoopSt) (k k4 : String) (l l4 : List PlexChild)
    (hk : m.ratingKey = some k) (hk4 : m.ratingKey4k = some k4)
    (hc : env.plexChildrenProbe k = some l) (hc4 : env.plexChildrenProbe k4 = some l4)
    (hall : ∀ s ∈ m.seasons, l.any (fun c => c.index == s.seasonNumber) = true)
    (hall4 : ∀ s ∈ m.seasons, l4.any (fun c => c.index == s.seasonNumber) = true)
    (hidx : ∀ i ∈ idxs, i < m.seasons.length)
    (hmed : st.media = m) (hdd : st.didDeleteSeasons = false)
    (hcons : plexCacheConsistent env st.plexCache) :
    ∃ pc', idxs.foldl (seasonIter env ss true) st = { st with plexCache := pc' } ∧
      plexCacheConsistent env pc' := by
  induction idxs generalizing st with
  | nil => exact ⟨st.plexCache, rfl, hcons⟩
  | cons i rest ih =>
    obtain ⟨pc1, hstep, hcons1⟩ := seasonIter_present env ss m st i k k4 l l4
      hk hk4 hc hc4 hall hall4 (hidx i (by simp)) hmed hdd hcons
    rw [List.foldl_cons, hstep]
    obtain ⟨pc2, hrest, hcons2⟩ := ih { st with plexCache := pc1 }
      (fun j hj => hidx j (by simp [hj])) hmed hdd hcons1
    exact ⟨pc2, hrest, hcons2⟩

/-- C6 amended: persistence is indeed skipped when every probe confirms
presence - a record whose both variants are in Plex and whose every season
appears in both cached children listings is processed with no write, no
status assignment and no error - but the skip-if-identical claim itself is
false: `seasonExistsInSonarr` issues a save whenever either variant of a
season is judged missing in Sonarr even when nothing changed, so a second
consecutive run over unchanged external signals can issue nonzero writes
(see the counterexample). -/
theorem C6_all_present_no_writes (env : Env) (rs : List RadarrServer)
    (ss : List SonarrServer) (m : MediaRec) (sc : SonarrSeasonsCache)
    (k k4 : String) (l l4 : List PlexChild)
    (hk : m.ratingKey = some k) (hk4 : m.ratingKey4k = some k4)
    (hm : env.plexMetaOk k = true) (hm4 : env.plexMetaOk k4 = true)
    (hc : env.plexChildrenProbe k = some l) (hc4 : env.plexChildrenProbe k4 = some l4)
    (hall : ∀ s ∈ m.seasons, l.any (fun c => c.index == s.seasonNumber) = true)
    (hall4 : ∀ s ∈ m.seasons, l4.any (fun c => c.index == s.seasonNumber) = true) :
    (processMedia env rs ss m [] sc).media = m ∧
    (processMedia env rs ss m [] sc).writes = [] ∧
    (processMedia env rs ss m [] sc).events = [] ∧
    (processMedia env rs ss m [] sc).err = none := by
  have hpair : plexPairExists env m = (true, true) := by
    simp [plexPairExists, hk, hk4, hm, hm4]
  have hex : mediaExists env rs ss m sc = ⟨m, true, sc, [], []⟩ := by
    unfold mediaExists
    rw [hpair]
    rfl
  have hloop : ∀ st : SeasonLoopSt, st.media = m → st.didDeleteSeasons = false →
      plexCacheConsistent env st.plexCache →
      ∃ pc', (List.range m.seasons.length).foldl (seasonIter env ss true) st
        = { st with plexCache := pc' } := by
    intro st h1 h2 h3
    obtain ⟨pc', heq, _⟩ := foldl_seasonIter_present env ss m
      (List.range m.seasons.length) st k k4 l l4 hk hk4 hc hc4 hall hall4
      (fun i hi => List.mem_range.mp hi) h1 h2 h3
    exact ⟨pc', heq⟩
  unfold processMedia
  rw [hex]
  cases htv : m.mediaType with
  | movie => simp [htv]
  | tv =>
    obtain ⟨pc', heq⟩ := hloop ⟨m, false, [], sc, [], []⟩ rfl rfl
      (by intro kk v hv; simp [plexCacheGet] at hv)
    simp only [Bool.not_true, Bool.false_eq_true, if_false, htv, eq_self_iff_true, if_true]
    rw [heq]
    simp

/-- A one-season series fully present in Plex under both rating keys. -/
def mC6present : MediaRec :=
  { id := 4, tmdbId := 14, mediaType := .tv
    status := .available, status4k := .available
    serviceId := none, serviceId4k := none
    externalServiceId := none, externalServiceId4k := none
    externalServiceSlug := none, externalServiceSlug4k := none
    ratingKey := some "p", ratingKey4k := some "q"
    seasons := [⟨1, .available, .available⟩] }

/-- Environment in which both children listings list season 1. -/
def envC6present : Env :=
  { radarr := [], sonarr := []
    plexMetaOk := fun _ => true
    plexChildrenProbe := fun _ => some [⟨1⟩]
    adminExists := true, cancelAt := none, saveFails := fun _ => false }

/-- C6 witness: the amended theorem applied to a concrete fully-present
series. -/
theorem C6_all_present_no_writes_witness :
    (processMedia envC6present [] [] mC6present [] []).media = mC6present ∧
    (processMedia envC6present [] [] mC6present [] []).writes = [] ∧
    (processMedia envC6present [] [] mC6present [] []).events = [] ∧
    (processMedia envC6present [] [] mC6present [] []).err = none :=
  C6_all_present_no_writes envC6present [] [] mC6present [] "p" "q" [⟨1⟩] [⟨1⟩]
    rfl rfl rfl rfl rfl rfl (by decide) (by decide)

/-! ## C5: what "season exists" actually computes -/

/-- The claim's wording of per-variant season existence, written as the
spec states it: the media server's cached child listing contains a child
whose index equals the season number, OR the cached fulfillment season
statistics report an episode-file-count greater than zero for that season
number. -/
def specSeasonVariantJudgedExists (children : List PlexChild) (stats : List SonarrSeason)
    (sn : Nat) : Bool :=
  children.any (fun c => c.index == sn) ||
  stats.any (fun x =>
    x.seasonNumber == sn &&
    (match x.statistics with
     | some st => decide (0 < st.episodeFileCount)
     | none => false))

/-- What one Sonarr server actually contributes to the season check of
`seasonExistsInSonarr`: with no configured external id the server is
skipped (flag kept), a cached or fetched listing only counts against the
season when it lists that season number with exactly zero episode files,
and a thrown request counts against it. -/
def sonarrServerSeasonOk (s : SonarrServer) (extId : Option Nat) (sn : Nat)
    (cache : SonarrSeasonsCache) : Bool :=
  match extId with
  | none => true
  | some e =>
    match sonarrCacheGet cache (s.id, e) with
    | some ss => !seasonMarkedMissing ss sn
    | none =>
      match s.seriesProbe e with
      | none => false
      | some series => !seasonMarkedMissing series.seasons sn

theorem sonarrCacheGet_put (c : SonarrSeasonsCache) (kk k : Nat × Nat)
    (v : List SonarrSeason) :
    sonarrCacheGet (sonarrCachePut c k v) kk =
      if k = kk then some v else sonarrCacheGet c kk := by
  simp only [sonarrCacheGet, sonarrCachePut, List.find?]
  by_cases h : k = kk
  · simp [h]
  · simp [h, beq_eq_false_iff_ne.mpr h]

theorem sonarrServerSeasonOk_put (s' : SonarrServer) (extId : Option Nat) (sn : Nat)
    (c : SonarrSeasonsCache) (sid e : Nat) (v : List SonarrSeason)
    (hne : s'.id ≠ sid) :
    sonarrServerSeasonOk s' extId sn (sonarrCachePut c (sid, e) v)
      = sonarrServerSeasonOk s' extId sn c := by
  cases extId with
  | none => rfl
  | some e' =>
    simp only [sonarrServerSeasonOk]
    rw [sonarrCacheGet_put]
    have hne2 : ¬((sid, e) = (s'.id, e')) := by
      intro h
      have h1 : sid = s'.id := congrArg Prod.fst h
      exact hne h1.symm
    simp [hne2]

theorem all_seasonOk_put (f : SonarrServer → Bool) (rest : List SonarrServer)
    (ext : Option Nat) (sn : Nat) (c : SonarrSeasonsCache) (sid e : Nat)
    (v : List SonarrSeason) (h : ∀ s' ∈ rest, s'.id ≠ sid) :
    rest.all (fun s' => f s' || sonarrServerSeasonOk s' ext sn (sonarrCachePut c (sid, e) v))
      = rest.all (fun s' => f s' || sonarrServerSeasonOk s' ext sn c) := by
  induction rest with
  | nil => rfl
  | cons s' rest' ih =>
    simp only [List.all_cons]
    rw [sonarrServerSeasonOk_put s' ext sn c sid e v (h s' (by simp)),
        ih (fun x hx => h x (by simp [hx]))]

theorem seasonSonarrFold_flags (servers : List SonarrServer) (m : MediaRec) (sn : Nat)
    (acc : SeasonFlagsOut)
    (hdis : servers.Pairwise (fun a b => a.id ≠ b.id)) :
    (seasonSonarrFold servers m sn acc).fStd
      = (acc.fStd &&
         servers.all (fun s => s.is4k || sonarrServerSeasonOk s m.externalServiceId sn acc.cache)) ∧
    (seasonSonarrFold servers m sn acc).f4k
      = (acc.f4k &&
         servers.all (fun s => !s.is4k || sonarrServerSeasonOk s m.externalServiceId4k sn acc.cache)) := by
  induction servers generalizing acc with
  | nil => simp [seasonSonarrFold]
  | cons s rest ih =>
    rw [List.pairwise_cons] at hdis
    obtain ⟨hhead, htail⟩ := hdis
    have hids : ∀ s' ∈ rest, s'.id ≠ s.id := fun s' hs' => (hhead s' hs').symm
    simp only [seasonSonarrFold]
    cases h4 : s.is4k with
    | true =>
      simp only [if_true]
      cases hext : m.externalServiceId4k with
      | none =>
        have := ih acc htail
        simp only [List.all_cons, h4]
        simp [this.1, this.2, sonarrServerSeasonOk, hext]
      | some e =>
        cases hcg : sonarrCacheGet acc.cache (s.id, e) with
        | some ss0 =>
          cases hmiss : seasonMarkedMissing ss0 sn with
          | true =>
            have := ih ⟨acc.fStd, false, sonarrCachePut acc.cache (s.id, e) ss0⟩ htail
            simp only [hcg, hmiss, if_true]
            simp only [List.all_cons, h4, this.1, this.2]
            rw [all_seasonOk_put _ rest m.externalServiceId sn acc.cache s.id e ss0 hids,
                all_seasonOk_put _ rest m.externalServiceId4k sn acc.cache s.id e ss0 hids]
            simp [sonarrServerSeasonOk, hext, hcg, hmiss]
          | false =>
            have := ih ⟨acc.fStd, acc.f4k, sonarrCachePut acc.cache (s.id, e) ss0⟩ htail
            simp only [hcg, hmiss, Bool.false_eq_true, if_false]
            simp only [List.all_cons, h4, this.1, this.2]
            rw [all_seasonOk_put _ rest m.externalServiceId sn acc.cache s.id e ss0 hids,
                all_seasonOk_put _ rest m.externalServiceId4k sn acc.cache s.id e ss0 hids]
            simp [sonarrServerSeasonOk, hext, hcg, hmiss, Bool.and_assoc]
        | none =>
          cases hpr : s.seriesProbe e with
          | none =>
            have := ih ⟨acc.fStd, false, acc.cache⟩ htail
            simp only [hcg, hpr]
            simp only [List.all_cons, h4, this.1, this.2]
            simp [sonarrServerSeasonOk, hext, hcg, hpr]
          | some series =>
            cases hmiss : seasonMarkedMissing series.seasons sn with
            | true =>
              have := ih ⟨acc.fStd, false,
                sonarrCachePut acc.cache (s.id, e) series.seasons⟩ htail
              simp only [hcg, hpr, hmiss, if_true]
              simp only [List.all_cons, h4, this.1, this.2]
              rw [all_seasonOk_put _ rest m.externalServiceId sn acc.cache s.id e
                    series.seasons hids,
                  all_seasonOk_put _ rest m.externalServiceId4k sn acc.cache s.id e
                    series.seasons hids]
              simp [sonarrServerSeasonOk, hext, hcg, hpr, hmiss]
            | false =>
              have := ih ⟨acc.fStd, acc.f4k,
                sonarrCachePut acc.cache (s.id, e) series.seasons⟩ htail
              simp only [hcg, hpr, hmiss, Bool.false_eq_true, if_false]
              simp only [List.all_cons, h4, this.1, this.2]
              rw [all_seasonOk_put _ rest m.externalServiceId sn acc.cache s.id e
                    series.seasons hids,
                  all_seasonOk_put _ rest m.externalServiceId4k sn acc.cache s.id e
                    series.seasons hids]
              simp [sonarrServerSeasonOk, hext, hcg, hpr, hmiss, Bool.and_assoc]
    | false =>
      simp only [Bool.false_eq_true, if_false]
      cases hext : m.externalServiceId with
      | none =>
        have := ih acc htail
        simp only [List.all_cons]
        simp [h4, this.1, this.2, sonarrServerSeasonOk, hext]
      | some e =>
        cases hcg : sonarrCacheGet acc.cache (s.id, e) with
        | some ss0 =>
          cases hmiss : seasonMarkedMissing ss0 sn with
          | true =>
            have := ih ⟨false, acc.f4k, sonarrCachePut acc.cache (s.id, e) ss0⟩ htail
            simp only [hcg, hmiss, if_true]
            simp only [List.all_cons, this.1, this.2]
            rw [all_seasonOk_put _ rest m.externalServiceId sn acc.cache s.id e ss0 hids,
                all_seasonOk_put _ rest m.externalServiceId4k sn acc.cache s.id e ss0 hids]
            simp [h4, sonarrServerSeasonOk, hext, hcg, hmiss]
          | false =>
            have := ih ⟨acc.fStd, acc.f4k, sonarrCachePut acc.cache (s.id, e) ss0⟩ htail
            simp only [hcg, hmiss, Bool.false_eq_true, if_false]
            simp only [List.all_cons, this.1, this.2]
            rw [all_seasonOk_put _ rest m.externalServiceId sn acc.cache s.id e ss0 hids,
                all_seasonOk_put _ rest m.externalServiceId4k sn acc.cache s.id e ss0 hids]
            simp [h4, sonarrServerSeasonOk, hext, hcg, hmiss, Bool.and_assoc]
        | none =>
          cases hpr : s.seriesProbe e with
          | none =>
            have := ih ⟨false, acc.f4k, acc.cache⟩ htail
            simp only [hcg, hpr]
            simp only [List.all_cons, this.1, this.2]
            simp [h4, sonarrServerSeasonOk, hext, hcg, hpr]
          | some series =>
            cases hmiss : seasonMarkedMissing series.seasons sn with
            | true =>
              have := ih ⟨false, acc.f4k,
                sonarrCachePut acc.cache (s.id, e) series.seasons⟩ htail
              simp only [hcg, hpr, hmiss, if_true]
              simp only [List.all_cons, this.1, this.2]
              rw [all_seasonOk_put _ rest m.externalServiceId sn acc.cache s.id e
                    series.seasons hids,
                  all_seasonOk_put _ rest m.externalServiceId4k sn acc.cache s.id e
                    series.seasons hids]
              simp [h4, sonarrServerSeasonOk, hext, hcg, hpr, hmiss]
            | false =>
              have := ih ⟨acc.fStd, acc.f4k,
                sonarrCachePut acc.cache (s.id, e) series.seasons⟩ htail
              simp only [hcg, hpr, hmiss, Bool.false_eq_true, if_false]
              simp only [List.all_cons, this.1, this.2]
              rw [all_seasonOk_put _ rest m.externalServiceId sn acc.cache s.id e
                    series.seasons hids,
                  all_seasonOk_put _ rest m.externalServiceId4k sn acc.cache s.id e
                    series.seasons hids]
              simp [h4, sonarrServerSeasonOk, hext, hcg, hpr, hmiss, Bool.and_assoc]

/-- C5 amended: a season's variant is judged existent iff the media
server's cached child listing for that variant's rating key contains a
child with the season's index, OR every sync-enabled matching-variant
fulfillment server accepts the season - where a server with no configured
external id for the variant accepts it, a cached or fetched listing rejects
it only when it lists that season number with an episode-file-count of
exactly zero (absence from the listing or missing statistics count as
acceptance, not as count-zero), and a thrown lookup rejects it.  The
hypothesis asks the configured servers to carry distinct ids, as the
database primary keys that form the cache key do. -/
theorem C5_season_existence_characterized (ss : List SonarrServer) (m : MediaRec)
    (sn : Nat) (cache : SonarrSeasonsCache) (plexStd plex4k : Bool)
    (hdis : ss.Pairwise (fun a b => a.id ≠ b.id)) :
    ((seasonSonarrFold ss m sn ⟨true, true, cache⟩).fStd || plexStd)
      = (ss.all (fun s => s.is4k || sonarrServerSeasonOk s m.externalServiceId sn cache)
         || plexStd) ∧
    ((seasonSonarrFold ss m sn ⟨true, true, cache⟩).f4k || plex4k)
      = (ss.all (fun s => !s.is4k || sonarrServerSeasonOk s m.externalServiceId4k sn cache)
         || plex4k) := by
  have h := seasonSonarrFold_flags ss m sn ⟨true, true, cache⟩ hdis
  rw [h.1, h.2]
  simp

/-- The season listing the single configured server returns: the series
exists, but the listing does not mention season 1 at all. -/
def statsC5 : List SonarrSeason := []

/-- The Plex children listing consulted for the season: empty. -/
def childrenC5 : List PlexChild := []

def ssC5 : List SonarrServer :=
  [⟨1, false, true, fun e => if e = 7 then some ⟨⟨3⟩, statsC5⟩ else none⟩]

def mC5 : MediaRec :=
  { id := 5, tmdbId := 15, mediaType := .tv
    status := .partiallyAvailable, status4k := .unknown
    serviceId := none, serviceId4k := none
    externalServiceId := some 7, externalServiceId4k := none
    externalServiceSlug := none, externalServiceSlug4k := none
    ratingKey := none, ratingKey4k := none
    seasons := [⟨1, .available, .unknown⟩] }

/-- C5 counterexample: the claim's iff fails.  The fulfillment listing the
code consults (`statsC5`) reports no episode-file-count greater than zero
for season 1 - the season is absent from it - and the media server's child
listing (`childrenC5`) does not contain it either, so the claimed condition
is false; yet the engine judges the standard variant of season 1 existent,
because a season only counts as missing when a listing carries an explicit
zero-count entry for it. -/
theorem C5_counterexample :
    ((seasonSonarrFold ssC5 mC5 1 ⟨true, true, []⟩).fStd
      || childrenC5.any (fun c => c.index == 1)) = true ∧
    specSeasonVariantJudgedExists childrenC5 statsC5 1 = false := by
  decide

/-- C5 witness: the amended characterization applied to the concrete
counterexample scenario. -/
theorem C5_season_existence_characterized_witness :
    ((seasonSonarrFold ssC5 mC5 1 ⟨true, true, []⟩).fStd || false)
      = (ssC5.all (fun s => s.is4k || sonarrServerSeasonOk s mC5.externalServiceId 1 [])
         || false) ∧
    ((seasonSonarrFold ssC5 mC5 1 ⟨true, true, []⟩).f4k || false)
      = (ssC5.all (fun s => !s.is4k || sonarrServerSeasonOk s mC5.externalServiceId4k 1 [])
         || false) :=
  C5_season_existence_characterized ssC5 mC5 1 [] false false (by decide)

/-! ## C3: linkage clearing and the approved-request exception -/

/-- The media-request table, as the earlier revision's `findMediaStatus`
queries it: whether an APPROVED request exists for a media id and
variant. -/
structure RequestStore where
  hasApprovedRequest : Nat → Bool → Bool

namespace PriorRev

/-- `findMediaStatus` of the earlier revision (src/unnamed/part_001 lines
150-172): whether an APPROVED media request for this media id and variant
exists. -/
def findMediaStatus (req : RequestStore) (m : MediaRec) (is4k : Bool) : Bool :=
  req.hasApprovedRequest m.id is4k

/-- `mediaUpdater` of the earlier revision (src/unnamed/part_001 lines
174-217): sets the variant's status to DELETED, and clears the variant's
linkage columns unless the record is a series with an approved request for
that variant (`isMediaProcessing`). -/
def mediaUpdater (req : RequestStore) (m : MediaRec) (is4k : Bool) : MediaRec :=
  let isMediaProcessing := if m.mediaType = .tv then findMediaStatus req m is4k else false
  if is4k then
    { m with status4k := .deleted
             serviceId4k := if isMediaProcessing then m.serviceId4k else none
             externalServiceId4k := if isMediaProcessing then m.externalServiceId4k else none
             externalServiceSlug4k := if isMediaProcessing then m.externalServiceSlug4k else none
             ratingKey4k := if isMediaProcessing then m.ratingKey4k else none }
  else
    { m with status := .deleted
             serviceId := if isMediaProcessing then m.serviceId else none
             externalServiceId := if isMediaProcessing then m.externalServiceId else none
             externalServiceSlug := if isMediaProcessing then m.externalServiceSlug else none
             ratingKey := if isMediaProcessing then m.ratingKey else none }

end PriorRev

/-- A request store in which every query finds an approved, unfulfilled
request. -/
def reqAlways : RequestStore := ⟨fun _ _ => true⟩

/-- A series with populated standard linkage columns. -/
def mC3 : MediaRec :=
  { id := 3, tmdbId := 13, mediaType := .tv
    status := .available, status4k := .available
    serviceId := some 5, serviceId4k := some 6
    externalServiceId := some 7, externalServiceId4k := some 8
    externalServiceSlug := some "s", externalServiceSlug4k := some "t"
    ratingKey := some "k", ratingKey4k := some "j"
    seasons := [] }

/-- C3 counterexample: in the shipped engine the approved-request exception
does not exist.  With an approved unfulfilled request targeting the
standard variant of `mC3`, `mediaUpdater` still clears the variant's
linkage columns to null while setting the status to DELETED, where the
claim requires them to keep their prior values. -/
theorem C3_counterexample :
    reqAlways.hasApprovedRequest mC3.id false = true ∧
    mC3.serviceId = some 5 ∧
    (mediaUpdater mC3 false).1.status = .deleted ∧
    (mediaUpdater mC3 false).1.serviceId = none ∧
    (mediaUpdater mC3 false).1.externalServiceId = none ∧
    (mediaUpdater mC3 false).1.externalServiceSlug = none ∧
    (mediaUpdater mC3 false).1.ratingKey = none := by
  decide

/-- C3 amended: in the shipped revision, the per-variant updater clears the
lost variant's four linkage columns to null unconditionally whenever it
fires (always together with setting that variant's status to DELETED, the
other variant's status and linkage untouched); no approved-request
exception exists there.  The request-preserving behaviour is the earlier
revision's: its `mediaUpdater` keeps the variant's linkage exactly when the
record is a series and `findMediaStatus` reports an approved request for
that variant - so even there movies never keep linkage. -/
theorem C3_linkage_clearing :
    (∀ m : MediaRec,
      (mediaUpdater m false).1.status = .deleted ∧
      (mediaUpdater m false).1.serviceId = none ∧
      (mediaUpdater m false).1.externalServiceId = none ∧
      (mediaUpdater m false).1.externalServiceSlug = none ∧
      (mediaUpdater m false).1.ratingKey = none ∧
      (mediaUpdater m false).1.status4k = m.status4k ∧
      (mediaUpdater m false).1.serviceId4k = m.serviceId4k ∧
      (mediaUpdater m false).1.externalServiceId4k = m.externalServiceId4k ∧
      (mediaUpdater m false).1.externalServiceSlug4k = m.externalServiceSlug4k ∧
      (mediaUpdater m false).1.ratingKey4k = m.ratingKey4k) ∧
    (∀ m : MediaRec,
      (mediaUpdater m true).1.status4k = .deleted ∧
      (mediaUpdater m true).1.serviceId4k = none ∧
      (mediaUpdater m true).1.externalServiceId4k = none ∧
      (mediaUpdater m true).1.externalServiceSlug4k = none ∧
      (mediaUpdater m true).1.ratingKey4k = none ∧
      (mediaUpdater m true).1.status = m.status ∧
      (mediaUpdater m true).1.serviceId = m.serviceId ∧
      (mediaUpdater m true).1.externalServiceId = m.externalServiceId ∧
      (mediaUpdater m true).1.externalServiceSlug = m.externalServiceSlug ∧
      (mediaUpdater m true).1.ratingKey = m.ratingKey) ∧
    (∀ (req : RequestStore) (m : MediaRec),
      m.mediaType = .tv → req.hasApprovedRequest m.id false = true →
      (PriorRev.mediaUpdater req m false).status = .deleted ∧
      (PriorRev.mediaUpdater req m false).serviceId = m.serviceId ∧
      (PriorRev.mediaUpdater req m false).externalServiceId = m.externalServiceId ∧
      (PriorRev.mediaUpdater req m false).externalServiceSlug = m.externalServiceSlug ∧
      (PriorRev.mediaUpdater req m false).ratingKey = m.ratingKey) ∧
    (∀ (req : RequestStore) (m : MediaRec),
      m.mediaType = .tv → req.hasApprovedRequest m.id true = true →
      (PriorRev.mediaUpdater req m true).status4k = .deleted ∧
      (PriorRev.mediaUpdater req m true).serviceId4k = m.serviceId4k ∧
      (PriorRev.mediaUpdater req m true).externalServiceId4k = m.externalServiceId4k ∧
      (PriorRev.mediaUpdater req m true).externalServiceSlug4k = m.externalServiceSlug4k ∧
      (PriorRev.mediaUpdater req m true).ratingKey4k = m.ratingKey4k) := by
  refine ⟨fun m => ?_, fun m => ?_, fun req m htv hreq => ?_, fun req m htv hreq => ?_⟩
  · simp [mediaUpdater]
  · simp [mediaUpdater]
  · simp [PriorRev.mediaUpdater, PriorRev.findMediaStatus, htv, hreq]
  · simp [PriorRev.mediaUpdater, PriorRev.findMediaStatus, htv, hreq]

/-- C3 witness: the amended theorem's request-preserving conjunct applied
to a concrete series with an approved request, and the unconditional
clearing conjunct applied to the same record. -/
theorem C3_linkage_clearing_witness :
    ((mediaUpdater mC3 false).1.status = .deleted ∧
     (mediaUpdater mC3 false).1.serviceId = none ∧
     (mediaUpdater mC3 false).1.externalServiceId = none ∧
     (mediaUpdater mC3 false).1.externalServiceSlug = none ∧
     (mediaUpdater mC3 false).1.ratingKey = none ∧
     (mediaUpdater mC3 false).1.status4k = mC3.status4k ∧
     (mediaUpdater mC3 false).1.serviceId4k = mC3.serviceId4k ∧
     (mediaUpdater mC3 false).1.externalServiceId4k = mC3.externalServiceId4k ∧
     (mediaUpdater mC3 false).1.externalServiceSlug4k = mC3.externalServiceSlug4k ∧
     (mediaUpdater mC3 false).1.ratingKey4k = mC3.ratingKey4k) ∧
    ((PriorRev.mediaUpdater reqAlways mC3 false).status = .deleted ∧
     (PriorRev.mediaUpdater reqAlways mC3 false).serviceId = mC3.serviceId ∧
     (PriorRev.mediaUpdater reqAlways mC3 false).externalServiceId = mC3.externalServiceId ∧
     (PriorRev.mediaUpdater reqAlways mC3 false).externalServiceSlug
        = mC3.externalServiceSlug ∧
     (PriorRev.mediaUpdater reqAlways mC3 false).ratingKey = mC3.ratingKey) :=
  ⟨C3_linkage_clearing.1 mC3, C3_linkage_clearing.2.2.1 reqAlways mC3 rfl rfl⟩

/-! ## C1: every status assignment is DELETED, UNKNOWN, or the one
AVAILABLE to PARTIALLY_AVAILABLE demotion of a parent variant -/

/-- A status assignment is admissible when it writes DELETED or UNKNOWN,
or when it demotes a media record's (parent's) variant from AVAILABLE to
PARTIALLY_AVAILABLE. -/
def evOkB (e : StatusEv) : Bool :=
  e.newSt == .deleted || e.newSt == .unknown ||
  (e.oldSt == .available && e.newSt == .partiallyAvailable &&
   (e.target == .mediaStd || e.target == .media4k))

theorem all_evOk_append {l1 l2 : List StatusEv} (h1 : l1.all evOkB = true)
    (h2 : l2.all evOkB = true) : (l1 ++ l2).all evOkB = true := by
  simp [List.all_append, h1, h2]

theorem markSeasonsDeletedGo_evOk (is4k : Bool) (i : Nat) (l : List Season) :
    ((markSeasonsDeletedGo is4k i l).2).all evOkB = true := by
  induction l generalizing i with
  | nil => rfl
  | cons s rest ih =>
    simp only [markSeasonsDeletedGo]
    cases is4k with
    | true => by_cases hs : s.status4k = .available <;> simp [hs, evOkB, ih]
    | false => by_cases hs : s.status = .available <;> simp [hs, evOkB, ih]

theorem mediaUpdater_evOk (m : MediaRec) (is4k : Bool) :
    ((mediaUpdater m is4k).2.2).all evOkB = true := by
  cases is4k with
  | false =>
    by_cases htv : m.mediaType = .tv <;>
      simp [mediaUpdater, htv, evOkB, markSeasonsDeletedGo_evOk]
  | true =>
    by_cases htv : m.mediaType = .tv <;>
      simp [mediaUpdater, htv, evOkB, markSeasonsDeletedGo_evOk]

theorem mediaExistsInRadarr_evOk (rs : List RadarrServer) (m : MediaRec) (p p4 : Bool) :
    (mediaExistsInRadarr rs m p p4).2.2.2.all evOkB = true := by
  simp only [mediaExistsInRadarr, List.all_append, Bool.and_eq_true]
  constructor <;>
  · repeat' split
    all_goals first | apply mediaUpdater_evOk | rfl

theorem mediaExistsInSonarr_evOk (ss : List SonarrServer) (m : MediaRec) (p p4 : Bool)
    (c : SonarrSeasonsCache) :
    (mediaExistsInSonarr ss m p p4 c).events.all evOkB = true := by
  simp only [mediaExistsInSonarr, List.all_append, Bool.and_eq_true]
  constructor <;>
  · repeat' split
    all_goals first | apply mediaUpdater_evOk | rfl

theorem mediaExists_evOk (env : Env) (rs : List RadarrServer) (ss : List SonarrServer)
    (m : MediaRec) (c : SonarrSeasonsCache) :
    (mediaExists env rs ss m c).events.all evOkB = true := by
  simp only [mediaExists]
  split
  · rfl
  · split
    · apply mediaExistsInRadarr_evOk
    · apply mediaExistsInSonarr_evOk

theorem mediaMissingUpdate_evOk (m : MediaRec) :
    (mediaMissingUpdate m).2.all evOkB = true := by
  unfold mediaMissingUpdate
  split
  · simp only [List.all_cons, List.all_nil, Bool.and_eq_true]
    refine ⟨?_, ?_, trivial⟩ <;> (split <;> simp [evOkB])
  · rfl

theorem seasonExistsInSonarr_evOk (ss : List SonarrServer) (m : MediaRec) (i : Nat)
    (p p4 : Bool) (c : SonarrSeasonsCache) :
    (seasonExistsInSonarr ss m i p p4 c).events.all evOkB = true := by
  simp only [seasonExistsInSonarr, List.all_append, Bool.and_eq_true]
  constructor <;>
  · repeat' split
    all_goals simp_all [evOkB]

theorem seasonExists_evOk (env : Env) (ss : List SonarrServer) (m : MediaRec) (i : Nat)
    (pc : PlexSeasonsCache) (c : SonarrSeasonsCache) :
    (seasonExists env ss m i pc c).events.all evOkB = true := by
  simp only [seasonExists]
  repeat' split
  all_goals first | rfl | apply seasonExistsInSonarr_evOk

set_option maxHeartbeats 1000000 in
theorem seasonIter_evOk (env : Env) (ss : List SonarrServer) (b : Bool)
    (st : SeasonLoopSt) (i : Nat) (h : st.events.all evOkB = true) :
    (seasonIter env ss b st i).events.all evOkB = true := by
  have hse := seasonExists_evOk env ss st.media i st.plexCache st.cache
  simp only [seasonIter]
  generalize hR : seasonExists env ss st.media i st.plexCache st.cache = R
  rw [hR] at hse
  repeat' split
  all_goals simp_all [evOkB, List.all_append]

theorem foldl_seasonIter_evOk (env : Env) (ss : List SonarrServer) (b : Bool)
    (idxs : List Nat) (st : SeasonLoopSt) (h : st.events.all evOkB = true) :
    (idxs.foldl (seasonIter env ss b) st).events.all evOkB = true := by
  induction idxs generalizing st with
  | nil => exact h
  | cons i rest ih => exact ih _ (seasonIter_evOk env ss b st i h)

theorem processMedia_evOk (env : Env) (rs : List RadarrServer) (ss : List SonarrServer)
    (m : MediaRec) (pc : PlexSeasonsCache) (sc : SonarrSeasonsCache) :
    (processMedia env rs ss m pc sc).events.all evOkB = true := by
  simp only [processMedia, List.all_append, Bool.and_eq_true]
  refine ⟨⟨mediaExists_evOk env rs ss m sc, ?_⟩, ?_⟩
  · repeat' split
    all_goals first | apply mediaMissingUpdate_evOk | rfl
  · repeat' split
    all_goals first | (apply foldl_seasonIter_evOk; rfl) | rfl

theorem procRecord_evOk (env : Env) (rs : List RadarrServer) (ss : List SonarrServer)
    (st : LoopSt) (m : MediaRec) (h : st.events.all evOkB = true) :
    (procRecord env rs ss st m).1.events.all evOkB = true := by
  unfold procRecord
  split
  · exact h
  · exact all_evOk_append h (processMedia_evOk env rs ss m st.plexCache st.cache)

theorem procPage_evOk (env : Env) (rs : List RadarrServer) (ss : List SonarrServer)
    (st : LoopSt) (page : List MediaRec) (h : st.events.all evOkB = true) :
    (procPage env rs ss st page).1.events.all evOkB = true := by
  induction page generalizing st with
  | nil => exact h
  | cons m rest ih =>
    simp only [procPage]
    split
    · exact procRecord_evOk env rs ss st m h
    · exact ih _ (procRecord_evOk env rs ss st m h)

theorem pageLoop_evOk (env : Env) (rs : List RadarrServer) (ss : List SonarrServer)
    (st : LoopSt) (offset : Nat) :
    st.events.all evOkB = true →
    (pageLoop env rs ss st offset).1.events.all evOkB = true := by
  induction st, offset using pageLoop.induct env rs ss with
  | case1 st offset page r e hsome =>
    intro h
    rw [pageLoop]
    have h2 : (procPage env rs ss st
        (((st.db.filter eligibleMedia).drop offset).take pageSize)).2 = some e := hsome
    simp only [h2]
    exact procPage_evOk env rs ss st _ h
  | case2 st offset page r hnone hempty =>
    intro h
    rw [pageLoop]
    have h2 : (procPage env rs ss st
        (((st.db.filter eligibleMedia).drop offset).take pageSize)).2 = none := hnone
    have h3 : (((st.db.filter eligibleMedia).drop offset).take pageSize) = ([] : List MediaRec) :=
      hempty
    simp only [h2, h3]
    simp only [dif_pos]
    exact procPage_evOk env rs ss st _ h
  | case3 st offset page r hnone hempty ih =>
    intro h
    rw [pageLoop]
    have h2 : (procPage env rs ss st
        (((st.db.filter eligibleMedia).drop offset).take pageSize)).2 = none := hnone
    have h3 : ¬((((st.db.filter eligibleMedia).drop offset).take pageSize)
        = ([] : List MediaRec)) := hempty
    simp only [h2]
    rw [dif_neg h3]
    exact ih (procPage_evOk env rs ss st _ h)

/-- C1 (confirmed): over any run, every status assignment the engine
performs - recorded in the event trace with the value it overwrites -
either writes DELETED or UNKNOWN, or is the demotion of a media record's
(parent's) variant from AVAILABLE to PARTIALLY_AVAILABLE; no assignment
ever writes AVAILABLE, and PARTIALLY_AVAILABLE is only ever written over
AVAILABLE and only to a parent slot. -/
theorem C1_no_upgrade (env : Env) (st : AppState) (db : List MediaRec) :
    (runAvail env st db).events.all evOkB = true := by
  unfold runAvail
  cases env.adminExists <;> cases st.plexClient <;>
    first
      | rfl
      | exact pageLoop_evOk env _ _ ⟨db, 0, [], [], [], [], []⟩ 0 rfl

/-! ## Status-transition relations for C2 and C4 -/

/-- A status is terminal for this engine when it is DELETED or UNKNOWN. -/
def isTerm (s : MediaStatus) : Prop := s = .deleted ∨ s = .unknown

/-- The transitions a media record's variant status can take in one
processing step: unchanged, deleted from a non-terminal value, or the
AVAILABLE to PARTIALLY_AVAILABLE demotion. -/
def stTr (a b : MediaStatus) : Prop :=
  b = a ∨ ((a ≠ .deleted ∧ a ≠ .unknown) ∧ b = .deleted) ∨
  (a = .available ∧ b = .partiallyAvailable)

/-- The transitions a season record can take in one processing step: each
variant is unchanged or becomes DELETED, and a season whose two variants
are both UNKNOWN is untouched. -/
def seasonStep (s t : Season) : Prop :=
  t.seasonNumber = s.seasonNumber ∧
  (t.status = s.status ∨ t.status = .deleted) ∧
  (t.status4k = s.status4k ∨ t.status4k = .deleted) ∧
  (s.status = .unknown → s.status4k = .unknown → t = s)

/-- The per-record transition relation: both variant statuses move along
`stTr`, the season list only grows (the alias append), and every original
season position moves along `seasonStep`. -/
def mediaStep (a b : MediaRec) : Prop :=
  stTr a.status b.status ∧ stTr a.status4k b.status4k ∧
  a.seasons.length ≤ b.seasons.length ∧
  ∀ i, i < a.seasons.length →
    seasonStep (a.seasons.getD i dfltSeason) (b.seasons.getD i dfltSeason)

theorem stTr_refl (a : MediaStatus) : stTr a a := Or.inl rfl

theorem stTr_trans {a b c : MediaStatus} (h1 : stTr a b) (h2 : stTr b c) : stTr a c := by
  rcases h1 with h1 | ⟨⟨ha1, ha2⟩, h1⟩ | ⟨ha, h1⟩ <;>
    rcases h2 with h2 | ⟨⟨hb1, hb2⟩, h2⟩ | ⟨hb, h2⟩ <;>
    subst_vars <;> simp_all [stTr] <;> simp_all [isTerm]

theorem stTr_term {a b : MediaStatus} (h : stTr a b) (ht : isTerm a) : b = a := by
  rcases h with h | ⟨⟨h1, h2⟩, h⟩ | ⟨h1, h2⟩ <;> rcases ht with ht | ht <;> simp_all

theorem stTr_isTerm {a b : MediaStatus} (h : stTr a b) (ht : isTerm a) : isTerm b := by
  rw [stTr_term h ht]; exact ht

theorem stTr_not_avail {a b : MediaStatus} (h : stTr a b) (ha : a ≠ .available) :
    b ≠ .available := by
  rcases h with h | ⟨⟨h1, h2⟩, h⟩ | ⟨h1, h2⟩ <;> subst_vars <;> simp_all

theorem stTr_pa_source {a b : MediaStatus} (h : stTr a b)
    (hb : b = .partiallyAvailable) : a = .available ∨ a = .partiallyAvailable := by
  rcases h with h | ⟨⟨h1, h2⟩, h⟩ | ⟨h1, h2⟩ <;> subst_vars <;> simp_all

theorem seasonStep_refl (s : Season) : seasonStep s s :=
  ⟨rfl, Or.inl rfl, Or.inl rfl, fun _ _ => rfl⟩

theorem seasonStep_trans {s t u : Season} (h1 : seasonStep s t) (h2 : seasonStep t u) :
    seasonStep s u := by
  obtain ⟨hn1, ha1, hb1, hu1⟩ := h1
  obtain ⟨hn2, ha2, hb2, hu2⟩ := h2
  refine ⟨hn2.trans hn1, ?_, ?_, ?_⟩
  · rcases ha1 with h | h <;> rcases ha2 with h' | h' <;> simp_all
  · rcases hb1 with h | h <;> rcases hb2 with h' | h' <;> simp_all
  · intro hx hy
    have ht := hu1 hx hy
    subst ht
    exact hu2 hx hy

theorem seasonStep_isTerm_status {s t : Season} (h : seasonStep s t)
    (ht : isTerm s.status) : isTerm t.status := by
  rcases h.2.1 with h' | h' <;> simp_all [isTerm]

theorem seasonStep_isTerm_status4k {s t : Season} (h : seasonStep s t)
    (ht : isTerm s.status4k) : isTerm t.status4k := by
  rcases h.2.2.1 with h' | h' <;> simp_all [isTerm]

theorem seasonStep_deleted_status {s t : Season} (h : seasonStep s t)
    (ht : s.status = .deleted) : t.status = .deleted := by
  rcases h.2.1 with h' | h' <;> simp_all

theorem seasonStep_deleted_status4k {s t : Season} (h : seasonStep s t)
    (ht : s.status4k = .deleted) : t.status4k = .deleted := by
  rcases h.2.2.1 with h' | h' <;> simp_all

theorem mediaStep_refl (a : MediaRec) : mediaStep a a :=
  ⟨stTr_refl _, stTr_refl _, le_refl _, fun _ _ => seasonStep_refl _⟩

theorem mediaStep_trans {a b c : MediaRec} (h1 : mediaStep a b) (h2 : mediaStep b c) :
    mediaStep a c :=
  ⟨stTr_trans h1.1 h2.1, stTr_trans h1.2.1 h2.2.1, le_trans h1.2.2.1 h2.2.2.1,
   fun i hi => seasonStep_trans (h1.2.2.2 i hi) (h2.2.2.2 i (lt_of_lt_of_le hi h1.2.2.1))⟩

/-! ### List position helpers -/

theorem getD_set_self (l : List Season) (i : Nat) (v : Season) (h : i < l.length) :
    (l.set i v).getD i dfltSeason = v := by
  simp [List.getD_eq_getElem?_getD, List.getElem?_set_self, h,
    List.getElem?_eq_getElem, (List.length_set l i v) ▸ h]

theorem getD_set_ne (l : List Season) (i j : Nat) (v : Season) (h : i ≠ j) :
    (l.set i v).getD j dfltSeason = l.getD j dfltSeason := by
  simp [List.getD_eq_getElem?_getD, List.getElem?_set_ne h]

theorem getD_append_left (l l2 : List Season) (j : Nat) (h : j < l.length) :
    (l ++ l2).getD j dfltSeason = l.getD j dfltSeason := by
  simp [List.getD_eq_getElem?_getD, List.getElem?_append_left h]

theorem getD_map_mark (f : Season → Season) (l : List Season) (j : Nat)
    (h : j < l.length) :
    ((l.map f).getD j dfltSeason) = f (l.getD j dfltSeason) := by
  rw [List.getD_eq_getElem _ _ (by simpa using h), List.getD_eq_getElem _ _ h]
  simp

theorem getD_big (l : List Season) (i : Nat) (h : l.length ≤ i) :
    l.getD i dfltSeason = dfltSeason := by
  simp [List.getD_eq_getElem?_getD, List.getElem?_eq_none h]

theorem getD_set_cases (l : List Season) (i j : Nat) (v : Season) :
    (l.set i v).getD j dfltSeason = l.getD j dfltSeason ∨
    (l.set i v).getD j dfltSeason = v := by
  by_cases hij : i = j
  · subst hij
    by_cases hi : i < l.length
    · exact Or.inr (getD_set_self l i v hi)
    · rw [List.set_eq_of_length_le (le_of_not_lt hi)]
      exact Or.inl rfl
  · exact Or.inl (getD_set_ne l i j v hij)

theorem getD_concat_self (l : List Season) (v : Season) :
    (l ++ [v]).getD l.length dfltSeason = v := by
  rw [List.getD_eq_getElem _ _ (by simp)]
  simp

theorem isTerm_not_avail {s : MediaStatus} (h : isTerm s) : s ≠ .available := by
  rcases h with h | h <;> subst h <;> simp

theorem isTerm_not_pa {s : MediaStatus} (h : isTerm s) : s ≠ .partiallyAvailable := by
  rcases h with h | h <;> subst h <;> simp

/-! ### mediaStep building blocks -/

theorem mediaStep_seasons_set (m : MediaRec) (i : Nat) (v : Season)
    (h : seasonStep (m.seasons.getD i dfltSeason) v) :
    mediaStep m { m with seasons := m.seasons.set i v } := by
  refine ⟨stTr_refl _, stTr_refl _, by simp, ?_⟩
  intro j hj
  by_cases hij : i = j
  · subst hij
    rw [getD_set_self _ _ _ hj]
    exact h
  · rw [getD_set_ne _ _ _ _ hij]
    exact seasonStep_refl _

theorem mediaStep_seasons_append (m : MediaRec) (l : List Season) :
    mediaStep m { m with seasons := m.seasons ++ l } := by
  refine ⟨stTr_refl _, stTr_refl _, by simp, ?_⟩
  intro j hj
  rw [getD_append_left _ _ _ hj]
  exact seasonStep_refl _

theorem mediaStep_status_std (m : MediaRec) (s : MediaStatus) (h : stTr m.status s) :
    mediaStep m { m with status := s } :=
  ⟨h, stTr_refl _, le_refl _, fun _ _ => seasonStep_refl _⟩

theorem mediaStep_status_4k (m : MediaRec) (s : MediaStatus) (h : stTr m.status4k s) :
    mediaStep m { m with status4k := s } :=
  ⟨stTr_refl _, h, le_refl _, fun _ _ => seasonStep_refl _⟩

/-! ### The pre-loop phase: mediaExists and the whole-record deletion -/

/-- What the existence-resolution phase (mediaExists plus the
whole-record deletion block) guarantees: a `mediaStep`, an unchanged
season count, no introduction of PARTIALLY_AVAILABLE, and any season
variant newly driven terminal comes with the parent same-variant status
moved off AVAILABLE. -/
def phaseOk (a b : MediaRec) : Prop :=
  mediaStep a b ∧
  b.seasons.length = a.seasons.length ∧
  (b.status = .partiallyAvailable → a.status = .partiallyAvailable) ∧
  (b.status4k = .partiallyAvailable → a.status4k = .partiallyAvailable) ∧
  (∀ j, j < a.seasons.length →
     ¬ isTerm (a.seasons.getD j dfltSeason).status →
     isTerm (b.seasons.getD j dfltSeason).status → b.status ≠ .available) ∧
  (∀ j, j < a.seasons.length →
     ¬ isTerm (a.seasons.getD j dfltSeason).status4k →
     isTerm (b.seasons.getD j dfltSeason).status4k → b.status4k ≠ .available)

theorem phaseOk_refl (a : MediaRec) : phaseOk a a :=
  ⟨mediaStep_refl a, rfl, fun h => h, fun h => h,
   fun _ _ h1 h2 => absurd h2 h1, fun _ _ h1 h2 => absurd h2 h1⟩

theorem phaseOk_trans {a b c : MediaRec} (h1 : phaseOk a b) (h2 : phaseOk b c) :
    phaseOk a c := by
  obtain ⟨s1, l1, p1, q1, d1, e1⟩ := h1
  obtain ⟨s2, l2, p2, q2, d2, e2⟩ := h2
  refine ⟨mediaStep_trans s1 s2, l2.trans l1, fun h => p1 (p2 h), fun h => q1 (q2 h),
    ?_, ?_⟩
  · intro j hj hna hc
    by_cases hb : isTerm (b.seasons.getD j dfltSeason).status
    · exact stTr_not_avail s2.1 (d1 j hj hna hb)
    · exact d2 j (l1 ▸ hj) hb hc
  · intro j hj hna hc
    by_cases hb : isTerm (b.seasons.getD j dfltSeason).status4k
    · exact stTr_not_avail s2.2.1 (e1 j hj hna hb)
    · exact e2 j (l1 ▸ hj) hb hc

/-- The season transform applied by `markSeasonsDeletedGo` to every
season: the selected variant is set DELETED when it is AVAILABLE. -/
def markSeason (is4k : Bool) (s : Season) : Season :=
  if is4k then (if s.status4k = .available then { s with status4k := .deleted } else s)
  else (if s.status = .available then { s with status := .deleted } else s)

theorem markSeasonsDeletedGo_fst (is4k : Bool) (i : Nat) (l : List Season) :
    (markSeasonsDeletedGo is4k i l).1 = l.map (markSeason is4k) := by
  induction l generalizing i with
  | nil => rfl
  | cons s rest ih =>
    simp only [markSeasonsDeletedGo, markSeason, List.map_cons]
    repeat' split <;> simp_all

theorem markSeason_step (is4k : Bool) (s : Season) : seasonStep s (markSeason is4k s) := by
  unfold markSeason
  repeat' split
  · exact ⟨rfl, Or.inl rfl, Or.inr rfl, by intro _ h2; simp_all⟩
  · exact seasonStep_refl s
  · exact ⟨rfl, Or.inr rfl, Or.inl rfl, by intro h1 _; simp_all⟩
  · exact seasonStep_refl s

theorem markSeason_status (s : Season) : (markSeason true s).status = s.status := by
  simp only [markSeason, if_true]
  split <;> rfl

theorem markSeason_status4k (s : Season) : (markSeason false s).status4k = s.status4k := by
  simp only [markSeason, Bool.false_eq_true, if_false]
  split <;> rfl

theorem mediaUpdater_phase (m : MediaRec) (is4k : Bool)
    (h : (if is4k then m.status4k else m.status) ≠ .deleted ∧
         (if is4k then m.status4k else m.status) ≠ .unknown) :
    phaseOk m (mediaUpdater m is4k).1 := by
  cases h4 : is4k
  · rw [h4] at h
    simp only [Bool.false_eq_true, if_false] at h
    simp only [mediaUpdater, Bool.false_eq_true, if_false]
    split
    case isTrue htv =>
      refine ⟨⟨Or.inr (Or.inl ⟨h, rfl⟩), stTr_refl _, ?_, ?_⟩, ?_, ?_, fun hq => hq, ?_, ?_⟩
      · simp [markSeasonsDeletedGo_fst]
      · intro j hj
        have hj' : j < (markSeasonsDeletedGo false 0 m.seasons).1.length := by
          simp [markSeasonsDeletedGo_fst]; exact hj
        simp only [markSeasonsDeletedGo_fst] at hj' ⊢
        rw [getD_map_mark _ _ _ hj]
        exact markSeason_step false _
      · simp [markSeasonsDeletedGo_fst]
      · intro hpa; exact absurd hpa (by simp)
      · intro j hj h1 h2; simp
      · intro j hj h1 h2
        exfalso
        apply h1
        rw [markSeasonsDeletedGo_fst, getD_map_mark _ _ _ hj, markSeason_status4k] at h2
        exact h2
    case isFalse htv =>
      refine ⟨⟨Or.inr (Or.inl ⟨h, rfl⟩), stTr_refl _, le_refl _,
        fun _ _ => seasonStep_refl _⟩, rfl, ?_, fun hq => hq, ?_, ?_⟩
      · intro hpa; exact absurd hpa (by simp)
      · intro j hj h1 h2; simp
      · intro j hj h1 h2; exact absurd h2 h1
  · rw [h4] at h
    simp only [if_true] at h
    simp only [mediaUpdater, if_true]
    split
    case isTrue htv =>
      refine ⟨⟨stTr_refl _, Or.inr (Or.inl ⟨h, rfl⟩), ?_, ?_⟩, ?_, fun hq => hq, ?_, ?_, ?_⟩
      · simp [markSeasonsDeletedGo_fst]
      · intro j hj
        simp only [markSeasonsDeletedGo_fst]
        rw [getD_map_mark _ _ _ hj]
        exact markSeason_step true _
      · simp [markSeasonsDeletedGo_fst]
      · intro hpa; exact absurd hpa (by simp)
      · intro j hj h1 h2
        exfalso
        apply h1
        rw [markSeasonsDeletedGo_fst, getD_map_mark _ _ _ hj, markSeason_status] at h2
        exact h2
      · intro j hj h1 h2; simp
    case isFalse htv =>
      refine ⟨⟨stTr_refl _, Or.inr (Or.inl ⟨h, rfl⟩), le_refl _,
        fun _ _ => seasonStep_refl _⟩, rfl, fun hq => hq, ?_, ?_, ?_⟩
      · intro hpa; exact absurd hpa (by simp)
      · intro j hj h1 h2; exact absurd h2 h1
      · intro j hj h1 h2; simp

theorem mediaMissingUpdate_phase (m : MediaRec) : phaseOk m (mediaMissingUpdate m).1 := by
  simp only [mediaMissingUpdate]
  split
  case isTrue hg =>
    refine ⟨⟨?_, ?_, le_refl _, fun _ _ => seasonStep_refl _⟩, rfl, ?_, ?_, ?_, ?_⟩
    · simp only [stTr]
      by_cases hu : m.status = .unknown <;> by_cases hd : m.status = .deleted <;>
        simp [hu, hd]
    · simp only [stTr]
      by_cases hu : m.status4k = .unknown <;> by_cases hd : m.status4k = .deleted <;>
        simp [hu, hd]
    · intro hpa
      exfalso
      revert hpa
      repeat' split <;> simp
    · intro hpa
      exfalso
      revert hpa
      repeat' split <;> simp
    · intro j hj h1 h2
      repeat' split <;> simp
    · intro j hj h1 h2
      repeat' split <;> simp
  case isFalse hg => exact phaseOk_refl m

theorem phase_block_std (m : MediaRec) (c : Prop) [Decidable c] :
    phaseOk m (if c then
      (if m.status ≠ .deleted ∧ m.status ≠ .unknown then mediaUpdater m false
       else (m, [], [])) else (m, ([] : List MediaRec), ([] : List StatusEv))).1 := by
  split
  · split
    case isTrue h => exact mediaUpdater_phase m false h
    case isFalse h => exact phaseOk_refl m
  · exact phaseOk_refl m

theorem phase_block_4k (m : MediaRec) (c : Prop) [Decidable c] :
    phaseOk m (if c then
      (if m.status4k ≠ .deleted ∧ m.status4k ≠ .unknown then mediaUpdater m true
       else (m, [], [])) else (m, ([] : List MediaRec), ([] : List StatusEv))).1 := by
  split
  · split
    case isTrue h => exact mediaUpdater_phase m true h
    case isFalse h => exact phaseOk_refl m
  · exact phaseOk_refl m

theorem mediaExistsInRadarr_phase (rs : List RadarrServer) (m : MediaRec) (p p4 : Bool) :
    phaseOk m (mediaExistsInRadarr rs m p p4).1 := by
  simp only [mediaExistsInRadarr]
  exact phaseOk_trans (phase_block_std m _) (phase_block_4k _ _)

theorem mediaExistsInSonarr_phase (ss : List SonarrServer) (m : MediaRec) (p p4 : Bool)
    (c : SonarrSeasonsCache) :
    phaseOk m (mediaExistsInSonarr ss m p p4 c).media := by
  simp only [mediaExistsInSonarr]
  exact phaseOk_trans (phase_block_std m _) (phase_block_4k _ _)

theorem mediaExists_phase (env : Env) (rs : List RadarrServer) (ss : List SonarrServer)
    (m : MediaRec) (c : SonarrSeasonsCache) :
    phaseOk m (mediaExists env rs ss m c).media := by
  simp only [mediaExists]
  split
  · exact phaseOk_refl m
  · split
    · exact mediaExistsInRadarr_phase rs m _ _
    · exact mediaExistsInSonarr_phase ss m _ _ c

/-- The facts delivered by the standard-variant season block of
`seasonExistsInSonarr` (lines 505-528): it touches only position `i` of the
season list and the standard parent status, deletes only from a
non-terminal value, and demotes the parent exactly from AVAILABLE. -/
theorem seasonB1_facts (m : MediaRec) (S : Season) (i : Nat) (c : Prop) [Decidable c]
    (B : MediaRec × Season × List StatusEv)
    (hs : S = m.seasons.getD i dfltSeason)
    (hB : B = (if c then
      (if S.status ≠ MediaStatus.deleted ∧ S.status ≠ MediaStatus.unknown then
        (if m.status = MediaStatus.available then
          ({ m with
              seasons := m.seasons.set i ({ S with status := MediaStatus.deleted }),
              status := MediaStatus.partiallyAvailable },
           { S with status := MediaStatus.deleted },
           [⟨StatusTarget.seasonStd i, S.status, MediaStatus.deleted⟩,
            ⟨StatusTarget.mediaStd, m.status, MediaStatus.partiallyAvailable⟩])
        else ({ m with seasons := m.seasons.set i ({ S with status := MediaStatus.deleted }) },
              { S with status := MediaStatus.deleted },
              [⟨StatusTarget.seasonStd i, S.status, MediaStatus.deleted⟩]))
      else (m, S, ([] : List StatusEv)))
     else (m, S, []))) :
    mediaStep m B.1 ∧
    B.1.seasons.length = m.seasons.length ∧
    (∀ j, j < m.seasons.length → i ≠ j →
       B.1.seasons.getD j dfltSeason = m.seasons.getD j dfltSeason) ∧
    B.2.1 = B.1.seasons.getD i dfltSeason ∧
    B.1.status4k = m.status4k ∧
    (B.1.status = .partiallyAvailable → m.status = .partiallyAvailable ∨
       (m.status = .available ∧ i < m.seasons.length ∧
        isTerm (B.1.seasons.getD i dfltSeason).status)) ∧
    (∀ j, j < m.seasons.length → ¬ isTerm (m.seasons.getD j dfltSeason).status →
       isTerm (B.1.seasons.getD j dfltSeason).status → B.1.status ≠ .available) ∧
    (∀ j, j < m.seasons.length →
       (B.1.seasons.getD j dfltSeason).status4k = (m.seasons.getD j dfltSeason).status4k) ∧
    B.2.1.status4k = S.status4k := by
  subst hB
  split
  case isFalse hc =>
    refine ⟨mediaStep_refl m, rfl, fun _ _ _ => rfl, hs, rfl, fun h => Or.inl h,
      fun j hj h1 h2 => absurd h2 h1, fun _ _ => rfl, rfl⟩
  case isTrue hc =>
    split
    case isFalse hg =>
      refine ⟨mediaStep_refl m, rfl, fun _ _ _ => rfl, hs, rfl, fun h => Or.inl h,
        fun j hj h1 h2 => absurd h2 h1, fun _ _ => rfl, rfl⟩
    case isTrue hg =>
      have hi : i < m.seasons.length := by
        by_contra hi
        rw [getD_big m.seasons i (le_of_not_lt hi)] at hs
        exact hg.2 (by rw [hs]; rfl)
      have hstep : ∀ j, j < m.seasons.length →
          seasonStep (m.seasons.getD j dfltSeason)
            ((m.seasons.set i ({ S with status := MediaStatus.deleted })).getD j dfltSeason) := by
        intro j hj
        by_cases hij : i = j
        · subst hij
          rw [getD_set_self _ _ _ hj, ← hs]
          exact ⟨rfl, Or.inr rfl, Or.inl rfl, fun h1 _ => absurd h1 hg.2⟩
        · rw [getD_set_ne _ _ _ _ hij]
          exact seasonStep_refl _
      have hget : (m.seasons.set i ({ S with status := MediaStatus.deleted })).getD i dfltSeason
          = { S with status := MediaStatus.deleted } := getD_set_self _ _ _ hi
      have hframe : ∀ j, j < m.seasons.length → i ≠ j →
          (m.seasons.set i ({ S with status := MediaStatus.deleted })).getD j dfltSeason
            = m.seasons.getD j dfltSeason := fun j _ hij => getD_set_ne _ _ _ _ hij
      have h4k : ∀ j, j < m.seasons.length →
          ((m.seasons.set i ({ S with status := MediaStatus.deleted })).getD j
            dfltSeason).status4k = (m.seasons.getD j dfltSeason).status4k := by
        intro j hj
        by_cases hij : i = j
        · subst hij
          rw [getD_set_self _ _ _ hj, ← hs]
        · rw [getD_set_ne _ _ _ _ hij]
      split
      case isTrue hav =>
        refine ⟨⟨Or.inr (Or.inr ⟨hav, rfl⟩), stTr_refl _, by simp, hstep⟩,
          by simp, hframe, hget.symm, rfl, ?_, ?_, h4k, rfl⟩
        · intro _
          exact Or.inr ⟨hav, hi, by rw [hget]; exact Or.inl rfl⟩
        · intro j _ _ _
          simp
      case isFalse hav =>
        refine ⟨⟨stTr_refl _, stTr_refl _, by simp, hstep⟩,
          by simp, hframe, hget.symm, rfl, fun h => Or.inl h, fun _ _ _ _ => hav, h4k, rfl⟩

/-- The 4k-variant season block of `seasonExistsInSonarr` (lines 530-553):
the mirror image of the standard block. -/
theorem seasonB2_facts (m : MediaRec) (S : Season) (i : Nat) (c : Prop) [Decidable c]
    (B : MediaRec × Season × List StatusEv)
    (hs : S = m.seasons.getD i dfltSeason)
    (hB : B = (if c then
      (if S.status4k ≠ MediaStatus.deleted ∧ S.status4k ≠ MediaStatus.unknown then
        (if m.status4k = MediaStatus.available then
          ({ m with
              seasons := m.seasons.set i ({ S with status4k := MediaStatus.deleted }),
              status4k := MediaStatus.partiallyAvailable },
           { S with status4k := MediaStatus.deleted },
           [⟨StatusTarget.season4k i, S.status4k, MediaStatus.deleted⟩,
            ⟨StatusTarget.media4k, m.status4k, MediaStatus.partiallyAvailable⟩])
        else ({ m with seasons := m.seasons.set i ({ S with status4k := MediaStatus.deleted }) },
              { S with status4k := MediaStatus.deleted },
              [⟨StatusTarget.season4k i, S.status4k, MediaStatus.deleted⟩]))
      else (m, S, ([] : List StatusEv)))
     else (m, S, []))) :
    mediaStep m B.1 ∧
    B.1.seasons.length = m.seasons.length ∧
    (∀ j, j < m.seasons.length → i ≠ j →
       B.1.seasons.getD j dfltSeason = m.seasons.getD j dfltSeason) ∧
    B.2.1 = B.1.seasons.getD i dfltSeason ∧
    B.1.status = m.status ∧
    (B.1.status4k = .partiallyAvailable → m.status4k = .partiallyAvailable ∨
       (m.status4k = .available ∧ i < m.seasons.length ∧
        isTerm (B.1.seasons.getD i dfltSeason).status4k)) ∧
    (∀ j, j < m.seasons.length → ¬ isTerm (m.seasons.getD j dfltSeason).status4k →
       isTerm (B.1.seasons.getD j dfltSeason).status4k → B.1.status4k ≠ .available) ∧
    (∀ j, j < m.seasons.length →
       (B.1.seasons.getD j dfltSeason).status = (m.seasons.getD j dfltSeason).status) := by
  subst hB
  split
  case isFalse hc =>
    refine ⟨mediaStep_refl m, rfl, fun _ _ _ => rfl, hs, rfl, fun h => Or.inl h,
      fun j hj h1 h2 => absurd h2 h1, fun _ _ => rfl⟩
  case isTrue hc =>
    split
    case isFalse hg =>
      refine ⟨mediaStep_refl m, rfl, fun _ _ _ => rfl, hs, rfl, fun h => Or.inl h,
        fun j hj h1 h2 => absurd h2 h1, fun _ _ => rfl⟩
    case isTrue hg =>
      have hi : i < m.seasons.length := by
        by_contra hi
        rw [getD_big m.seasons i (le_of_not_lt hi)] at hs
        exact hg.2 (by rw [hs]; rfl)
      have hstep : ∀ j, j < m.seasons.length →
          seasonStep (m.seasons.getD j dfltSeason)
            ((m.seasons.set i ({ S with status4k := MediaStatus.deleted })).getD j dfltSeason) := by
        intro j hj
        by_cases hij : i = j
        · subst hij
          rw [getD_set_self _ _ _ hj, ← hs]
          exact ⟨rfl, Or.inl rfl, Or.inr rfl, fun _ h2 => absurd h2 hg.2⟩
        · rw [getD_set_ne _ _ _ _ hij]
          exact seasonStep_refl _
      have hget : (m.seasons.set i ({ S with status4k := MediaStatus.deleted })).getD i dfltSeason
          = { S with status4k := MediaStatus.deleted } := getD_set_self _ _ _ hi
      have hframe : ∀ j, j < m.seasons.length → i ≠ j →
          (m.seasons.set i ({ S with status4k := MediaStatus.deleted })).getD j dfltSeason
            = m.seasons.getD j dfltSeason := fun j _ hij => getD_set_ne _ _ _ _ hij
      have hstd : ∀ j, j < m.seasons.length →
          ((m.seasons.set i ({ S with status4k := MediaStatus.deleted })).getD j
            dfltSeason).status = (m.seasons.getD j dfltSeason).status := by
        intro j hj
        by_cases hij : i = j
        · subst hij
          rw [getD_set_self _ _ _ hj, ← hs]
        · rw [getD_set_ne _ _ _ _ hij]
      split
      case isTrue hav =>
        refine ⟨⟨stTr_refl _, Or.inr (Or.inr ⟨hav, rfl⟩), by simp, hstep⟩,
          by simp, hframe, hget.symm, rfl, ?_, ?_, hstd⟩
        · intro _
          exact Or.inr ⟨hav, hi, by rw [hget]; exact Or.inl rfl⟩
        · intro j _ _ _
          simp
      case isFalse hav =>
        refine ⟨⟨stTr_refl _, stTr_refl _, by simp, hstep⟩,
          by simp, hframe, hget.symm, rfl, fun h => Or.inl h, fun _ _ _ _ => hav, hstd⟩

/-- The append-and-save tail of `seasonExistsInSonarr` (lines 555-565):
statuses untouched, original season positions untouched. -/
theorem seasonFin_facts (m : MediaRec) (S : Season) (i : Nat) (c : Prop) [Decidable c]
    (W : MediaRec × List MediaRec)
    (hs : S = m.seasons.getD i dfltSeason)
    (hW : W = (if c then ({ m with seasons := m.seasons ++ [S] },
                          [{ m with seasons := m.seasons ++ [S] }])
               else (m, []))) :
    mediaStep m W.1 ∧
    (∀ j, j < m.seasons.length →
       W.1.seasons.getD j dfltSeason = m.seasons.getD j dfltSeason) ∧
    W.1.status = m.status ∧ W.1.status4k = m.status4k := by
  subst hW
  split
  · exact ⟨mediaStep_seasons_append m [S],
      fun j hj => getD_append_left _ _ _ hj, rfl, rfl⟩
  · exact ⟨mediaStep_refl m, fun _ _ => rfl, rfl, rfl⟩

set_option maxHeartbeats 2000000 in
/-- The bundle of facts about `seasonExistsInSonarr` needed for the season
loop invariant: it is a `mediaStep`, it leaves other season positions
alone, it reaches PARTIALLY_AVAILABLE only from PARTIALLY_AVAILABLE or by
the demotion that comes with a terminal same-variant season at position
`i`, a season variant newly driven terminal moves the parent same-variant
status off AVAILABLE, and a not-found verdict means the record came back
unchanged except for the appended alias season. -/
theorem seasonExistsInSonarr_facts (ss : List SonarrServer) (m : MediaRec) (i : Nat)
    (p p4 : Bool) (c : SonarrSeasonsCache) :
    mediaStep m (seasonExistsInSonarr ss m i p p4 c).media ∧
    (∀ j, j < m.seasons.length → i ≠ j →
       (seasonExistsInSonarr ss m i p p4 c).media.seasons.getD j dfltSeason
         = m.seasons.getD j dfltSeason) ∧
    ((seasonExistsInSonarr ss m i p p4 c).media.status = .partiallyAvailable →
       m.status = .partiallyAvailable ∨
       (m.status = .available ∧ i < m.seasons.length ∧
        isTerm ((seasonExistsInSonarr ss m i p p4 c).media.seasons.getD i
          dfltSeason).status)) ∧
    ((seasonExistsInSonarr ss m i p p4 c).media.status4k = .partiallyAvailable →
       m.status4k = .partiallyAvailable ∨
       (m.status4k = .available ∧ i < m.seasons.length ∧
        isTerm ((seasonExistsInSonarr ss m i p p4 c).media.seasons.getD i
          dfltSeason).status4k)) ∧
    (∀ j, j < m.seasons.length → ¬ isTerm (m.seasons.getD j dfltSeason).status →
       isTerm ((seasonExistsInSonarr ss m i p p4 c).media.seasons.getD j
         dfltSeason).status →
       (seasonExistsInSonarr ss m i p p4 c).media.status ≠ .available) ∧
    (∀ j, j < m.seasons.length → ¬ isTerm (m.seasons.getD j dfltSeason).status4k →
       isTerm ((seasonExistsInSonarr ss m i p p4 c).media.seasons.getD j
         dfltSeason).status4k →
       (seasonExistsInSonarr ss m i p p4 c).media.status4k ≠ .available) ∧
    ((seasonExistsInSonarr ss m i p p4 c).found = false →
       (seasonExistsInSonarr ss m i p p4 c).media
         = { m with seasons := m.seasons ++ [m.seasons.getD i dfltSeason] }) := by
  simp only [seasonExistsInSonarr]
  generalize hs0 : m.seasons.getD i dfltSeason = S
  generalize hfl : seasonSonarrFold ss m S.seasonNumber ⟨true, true, c⟩ = FL
  have hs : S = m.seasons.getD i dfltSeason := hs0.symm
  obtain ⟨h1s, h1len, h1fr, h1sync, h1st4, h1pa, h1loss, h1k4, h1s4⟩ :=
    seasonB1_facts m S i ((!FL.fStd && (FL.f4k || p4) && !p) = true) _ hs rfl
  obtain ⟨h2s, h2len, h2fr, h2sync, h2st, h2pa, h2loss, h2kS⟩ :=
    seasonB2_facts _ _ i (((FL.fStd || p) && !FL.f4k && !p4) = true) _ h1sync rfl
  obtain ⟨hfs, hffr, hfst, hfst4⟩ :=
    seasonFin_facts _ _ i ((!FL.fStd || !FL.f4k) = true) _ h2sync rfl
  refine ⟨mediaStep_trans h1s (mediaStep_trans h2s hfs), ?_, ?_, ?_, ?_, ?_, ?_⟩
  · intro j hj hij
    have e1 := h1fr j hj hij
    have e2 := h2fr j (by rw [h1len]; exact hj) hij
    have e3 := hffr j (by rw [h2len, h1len]; exact hj)
    exact e3.trans (e2.trans e1)
  · intro hpa
    rcases h1pa (by rw [← h2st, ← hfst]; exact hpa) with h | ⟨hav, hi, hterm⟩
    · exact Or.inl h
    · refine Or.inr ⟨hav, hi, ?_⟩
      have est := h2kS i (by rw [h1len]; exact hi)
      have e3 := hffr i (by rw [h2len, h1len]; exact hi)
      rw [← est, ← e3] at hterm
      exact hterm
  · intro hpa
    rcases h2pa (by rw [← hfst4]; exact hpa) with h | ⟨hav, hi, hterm⟩
    · exact Or.inl (by rw [← h1st4]; exact h)
    · refine Or.inr ⟨by rw [← h1st4]; exact hav, by rw [← h1len]; exact hi, ?_⟩
      have e3 := hffr i (by rw [h2len]; exact hi)
      rw [← e3] at hterm
      exact hterm
  · intro j hj h1 h2 heq
    have est := h2kS j (by rw [h1len]; exact hj)
    have e3 := hffr j (by rw [h2len, h1len]; exact hj)
    exact absurd (by rw [← h2st, ← hfst]; exact heq)
      (h1loss j hj h1 (by rw [← est, ← e3]; exact h2))
  · intro j hj h1 h2 heq
    have e3 := hffr j (by rw [h2len, h1len]; exact hj)
    exact absurd (by rw [← hfst4]; exact heq)
      (h2loss j (by rw [h1len]; exact hj)
        (by rw [h1k4 j hj]; exact h1)
        (by rw [← e3]; exact h2))
  · intro hnf
    have hnf' : (FL.fStd || FL.f4k || p || p4) = false := hnf
    have e1 : FL.fStd = false := by revert hnf'; cases FL.fStd <;> simp
    have e2 : FL.f4k = false := by revert hnf'; cases FL.f4k <;> simp
    have e3 : p = false := by revert hnf'; cases p <;> simp
    have e4 : p4 = false := by revert hnf'; cases p4 <;> simp
    simp [e1, e2, e3, e4]

/-- Helper for `seasonExists_facts`, abstracting over the values of the
two Plex child lookups. -/
theorem seasonExists_facts_aux (ss : List SonarrServer) (m : MediaRec) (i : Nat)
    (sc : SonarrSeasonsCache) (a : Bool × PlexSeasonsCache × Bool)
    (b : Bool × PlexSeasonsCache) :
    letI R : SeasonExOut :=
      if a.1 && b.1 then ⟨m, true, b.2, sc, [], []⟩
      else ⟨(seasonExistsInSonarr ss m i a.1 b.1 sc).media,
            (seasonExistsInSonarr ss m i a.1 b.1 sc).found, b.2,
            (seasonExistsInSonarr ss m i a.1 b.1 sc).cache,
            (seasonExistsInSonarr ss m i a.1 b.1 sc).writes,
            (seasonExistsInSonarr ss m i a.1 b.1 sc).events⟩
    mediaStep m R.media ∧
    (∀ j, j < m.seasons.length → i ≠ j →
       R.media.seasons.getD j dfltSeason = m.seasons.getD j dfltSeason) ∧
    (R.media.status = .partiallyAvailable →
       m.status = .partiallyAvailable ∨
       (m.status = .available ∧ i < m.seasons.length ∧
        isTerm (R.media.seasons.getD i dfltSeason).status)) ∧
    (R.media.status4k = .partiallyAvailable →
       m.status4k = .partiallyAvailable ∨
       (m.status4k = .available ∧ i < m.seasons.length ∧
        isTerm (R.media.seasons.getD i dfltSeason).status4k)) ∧
    (∀ j, j < m.seasons.length → ¬ isTerm (m.seasons.getD j dfltSeason).status →
       isTerm (R.media.seasons.getD j dfltSeason).status →
       R.media.status ≠ .available) ∧
    (∀ j, j < m.seasons.length → ¬ isTerm (m.seasons.getD j dfltSeason).status4k →
       isTerm (R.media.seasons.getD j dfltSeason).status4k →
       R.media.status4k ≠ .available) ∧
    (R.found = false →
       R.media = { m with seasons := m.seasons ++ [m.seasons.getD i dfltSeason] }) := by
  split
  · refine ⟨mediaStep_refl m, fun _ _ _ => rfl, fun h => Or.inl h, fun h => Or.inl h,
      fun j hj h1 h2 => absurd h2 h1, fun j hj h1 h2 => absurd h2 h1,
      fun h => absurd h (by simp)⟩
  · exact seasonExistsInSonarr_facts ss m i _ _ sc

/-- The same fact bundle lifted over `seasonExists`: the both-in-Plex
short-circuit changes nothing, otherwise `seasonExistsInSonarr` decides. -/
theorem seasonExists_facts (env : Env) (ss : List SonarrServer) (m : MediaRec) (i : Nat)
    (pc : PlexSeasonsCache) (sc : SonarrSeasonsCache) :
    mediaStep m (seasonExists env ss m i pc sc).media ∧
    (∀ j, j < m.seasons.length → i ≠ j →
       (seasonExists env ss m i pc sc).media.seasons.getD j dfltSeason
         = m.seasons.getD j dfltSeason) ∧
    ((seasonExists env ss m i pc sc).media.status = .partiallyAvailable →
       m.status = .partiallyAvailable ∨
       (m.status = .available ∧ i < m.seasons.length ∧
        isTerm ((seasonExists env ss m i pc sc).media.seasons.getD i
          dfltSeason).status)) ∧
    ((seasonExists env ss m i pc sc).media.status4k = .partiallyAvailable →
       m.status4k = .partiallyAvailable ∨
       (m.status4k = .available ∧ i < m.seasons.length ∧
        isTerm ((seasonExists env ss m i pc sc).media.seasons.getD i
          dfltSeason).status4k)) ∧
    (∀ j, j < m.seasons.length → ¬ isTerm (m.seasons.getD j dfltSeason).status →
       isTerm ((seasonExists env ss m i pc sc).media.seasons.getD j
         dfltSeason).status →
       (seasonExists env ss m i pc sc).media.status ≠ .available) ∧
    (∀ j, j < m.seasons.length → ¬ isTerm (m.seasons.getD j dfltSeason).status4k →
       isTerm ((seasonExists env ss m i pc sc).media.seasons.getD j
         dfltSeason).status4k →
       (seasonExists env ss m i pc sc).media.status4k ≠ .available) ∧
    ((seasonExists env ss m i pc sc).found = false →
       (seasonExists env ss m i pc sc).media
         = { m with seasons := m.seasons ++ [m.seasons.getD i dfltSeason] }) := by
  simp only [seasonExists]
  exact seasonExists_facts_aux ss m i sc _ _

/-- The core invariant of the `run()` season loop, relative to the record
value `m2` the loop started from and the index range `n`: the loop is a
`mediaStep`; a season variant newly driven terminal either raised the
didDeleteSeasons flag or moved the parent same-variant status off
AVAILABLE; the parent reaches PARTIALLY_AVAILABLE only from
PARTIALLY_AVAILABLE or with a terminal same-variant season in range; the
didDeleteSeasons flag comes with a season in range whose two variants are
both terminal; and when the record itself was judged missing both parent
statuses stay terminal. -/
def loopCore (n : Nat) (exB : Bool) (m2 : MediaRec) (st : SeasonLoopSt) : Prop :=
  mediaStep m2 st.media ∧
  ((∃ j, j < n ∧ ¬ isTerm (m2.seasons.getD j dfltSeason).status ∧
      isTerm (st.media.seasons.getD j dfltSeason).status) →
      st.didDeleteSeasons = true ∨ st.media.status ≠ .available) ∧
  ((∃ j, j < n ∧ ¬ isTerm (m2.seasons.getD j dfltSeason).status4k ∧
      isTerm (st.media.seasons.getD j dfltSeason).status4k) →
      st.didDeleteSeasons = true ∨ st.media.status4k ≠ .available) ∧
  (st.media.status = .partiallyAvailable → m2.status = .partiallyAvailable ∨
      ∃ j, j < n ∧ isTerm (st.media.seasons.getD j dfltSeason).status) ∧
  (st.media.status4k = .partiallyAvailable → m2.status4k = .partiallyAvailable ∨
      ∃ j, j < n ∧ isTerm (st.media.seasons.getD j dfltSeason).status4k) ∧
  (st.didDeleteSeasons = true → ∃ j, j < n ∧
      isTerm (st.media.seasons.getD j dfltSeason).status ∧
      isTerm (st.media.seasons.getD j dfltSeason).status4k) ∧
  (exB = false → isTerm st.media.status ∧ isTerm st.media.status4k)

/-- `loopCore` plus the end-of-iteration guarantee that a raised
didDeleteSeasons flag comes with both parent statuses off AVAILABLE (the
demotion block runs at the end of every iteration that raises it). -/
def loopFacts (n : Nat) (exB : Bool) (m2 : MediaRec) (st : SeasonLoopSt) : Prop :=
  loopCore n exB m2 st ∧
  (st.didDeleteSeasons = true →
     st.media.status ≠ .available ∧ st.media.status4k ≠ .available)

theorem loopFacts_base (n : Nat) (exB : Bool) (m2 : MediaRec) (pc : PlexSeasonsCache)
    (sc : SonarrSeasonsCache)
    (hterm : exB = false → isTerm m2.status ∧ isTerm m2.status4k) :
    loopFacts n exB m2 ⟨m2, false, pc, sc, [], []⟩ := by
  refine ⟨⟨mediaStep_refl m2, ?_, ?_, fun h => Or.inl h, fun h => Or.inl h, ?_, hterm⟩, ?_⟩
  · rintro ⟨j, hj, h1, h2⟩
    exact absurd h2 h1
  · rintro ⟨j, hj, h1, h2⟩
    exact absurd h2 h1
  · intro h
    exact absurd h (by simp)
  · intro h
    exact absurd h (by simp)

/-- The parent demotion block at the tail of every season-loop iteration
(lines 127-146): whenever the didDeleteSeasons flag is up, each parent
variant status that is AVAILABLE is demoted to PARTIALLY_AVAILABLE, so the
iteration ends with neither parent variant AVAILABLE. -/
theorem demoteWrap_facts (n : Nat) (exB : Bool) (m2 : MediaRec) (A W : SeasonLoopSt)
    (hc : loopCore n exB m2 A)
    (hW : W = (if A.didDeleteSeasons then
      (if A.media.status = MediaStatus.available ∨
          A.media.status4k = MediaStatus.available then
        let d1 : MediaRec × List StatusEv :=
          if A.media.status = MediaStatus.available then
            ({ A.media with status := MediaStatus.partiallyAvailable },
             [⟨StatusTarget.mediaStd, A.media.status, MediaStatus.partiallyAvailable⟩])
          else (A.media, [])
        let d2 : MediaRec × List StatusEv :=
          if d1.1.status4k = MediaStatus.available then
            ({ d1.1 with status4k := MediaStatus.partiallyAvailable },
             [⟨StatusTarget.media4k, d1.1.status4k, MediaStatus.partiallyAvailable⟩])
          else (d1.1, [])
        { A with media := d2.1, events := A.events ++ d1.2 ++ d2.2 }
      else A)
     else A)) :
    loopFacts n exB m2 W := by
  obtain ⟨hstep, hlossS, hloss4, hpaS, hpa4, hddW, htermc⟩ := hc
  by_cases hdd : A.didDeleteSeasons = true
  · by_cases hav : A.media.status = MediaStatus.available ∨
        A.media.status4k = MediaStatus.available
    · obtain ⟨j, hj, t1, t2⟩ := hddW hdd
      have hd : W.didDeleteSeasons = A.didDeleteSeasons := by
        rw [hW]
        simp [hdd, hav]
      by_cases h1 : A.media.status = MediaStatus.available
      · by_cases h2 : A.media.status4k = MediaStatus.available
        · have hm : W.media = { A.media with
              status := MediaStatus.partiallyAvailable,
              status4k := MediaStatus.partiallyAvailable } := by
            rw [hW]
            simp [hdd, hav, h1, h2]
          refine ⟨⟨?_, fun _ => Or.inl (hd.trans hdd), fun _ => Or.inl (hd.trans hdd),
            ?_, ?_, ?_, ?_⟩, ?_⟩
          · rw [hm]
            exact mediaStep_trans hstep
              ⟨Or.inr (Or.inr ⟨h1, rfl⟩), Or.inr (Or.inr ⟨h2, rfl⟩), le_refl _,
               fun _ _ => seasonStep_refl _⟩
          · intro _
            rw [hm]
            exact Or.inr ⟨j, hj, t1⟩
          · intro _
            rw [hm]
            exact Or.inr ⟨j, hj, t2⟩
          · intro _
            rw [hm]
            exact ⟨j, hj, t1, t2⟩
          · intro he
            exact absurd h1 (isTerm_not_avail (htermc he).1)
          · intro _
            rw [hm]
            exact ⟨by simp, by simp⟩
        · have hm : W.media = { A.media with status := MediaStatus.partiallyAvailable } := by
            rw [hW]
            simp [hdd, hav, h1, h2]
          refine ⟨⟨?_, fun _ => Or.inl (hd.trans hdd), fun _ => Or.inl (hd.trans hdd),
            ?_, ?_, ?_, ?_⟩, ?_⟩
          · rw [hm]
            exact mediaStep_trans hstep (mediaStep_status_std _ _ (Or.inr (Or.inr ⟨h1, rfl⟩)))
          · intro _
            rw [hm]
            exact Or.inr ⟨j, hj, t1⟩
          · intro hp
            rw [hm] at hp
            rcases hpa4 hp with h | ⟨k, hk, tk⟩
            · exact Or.inl h
            · rw [hm]
              exact Or.inr ⟨k, hk, tk⟩
          · intro _
            rw [hm]
            exact ⟨j, hj, t1, t2⟩
          · intro he
            exact absurd h1 (isTerm_not_avail (htermc he).1)
          · intro _
            rw [hm]
            exact ⟨by simp, h2⟩
      · have hone : A.media.status4k = MediaStatus.available := by
          rcases hav with h | h
          · exact absurd h h1
          · exact h
        have hm : W.media = { A.media with status4k := MediaStatus.partiallyAvailable } := by
          rw [hW]
          simp [hdd, hav, h1, hone]
        refine ⟨⟨?_, fun _ => Or.inl (hd.trans hdd), fun _ => Or.inl (hd.trans hdd),
          ?_, ?_, ?_, ?_⟩, ?_⟩
        · rw [hm]
          exact mediaStep_trans hstep (mediaStep_status_4k _ _ (Or.inr (Or.inr ⟨hone, rfl⟩)))
        · intro hp
          rw [hm] at hp
          rcases hpaS hp with h | ⟨k, hk, tk⟩
          · exact Or.inl h
          · rw [hm]
            exact Or.inr ⟨k, hk, tk⟩
        · intro _
          rw [hm]
          exact Or.inr ⟨j, hj, t2⟩
        · intro _
          rw [hm]
          exact ⟨j, hj, t1, t2⟩
        · intro he
          exact absurd hone (isTerm_not_avail (htermc he).2)
        · intro _
          rw [hm]
          exact ⟨h1, by simp⟩
    · have hw : W = A := by
        rw [hW]
        simp [hdd, hav]
      rw [hw]
      exact ⟨⟨hstep, hlossS, hloss4, hpaS, hpa4, hddW, htermc⟩,
        fun _ => ⟨fun he => hav (Or.inl he), fun he => hav (Or.inr he)⟩⟩
  · have hw : W = A := by
      rw [hW]
      simp [hdd]
    rw [hw]
    exact ⟨⟨hstep, hlossS, hloss4, hpaS, hpa4, hddW, htermc⟩, fun h => absurd h hdd⟩

/-- The main body of one season-loop iteration (lines 90-125), before the
demotion block: the cascade when the record is gone, the per-season
existence check, and the deletion with the alias rewrite when the season is
missing; it preserves `loopCore`. -/
theorem seasonMain_facts (env : Env) (ss : List SonarrServer) (n : Nat) (exB : Bool)
    (m2 : MediaRec) (st : SeasonLoopSt) (i : Nat)
    (hf : loopFacts n exB m2 st) (hi : i < n) (hn : n ≤ m2.seasons.length)
    (R : SeasonExOut)
    (hR : R = seasonExists env ss st.media i st.plexCache st.cache)
    (A : SeasonLoopSt)
    (hA : A = (if (!exB) = true ∧
        (((st.media.seasons.getD i dfltSeason).status ≠ MediaStatus.deleted ∨
          (st.media.seasons.getD i dfltSeason).status4k ≠ MediaStatus.deleted) ∧
         ((st.media.seasons.getD i dfltSeason).status ≠ MediaStatus.unknown ∨
          (st.media.seasons.getD i dfltSeason).status4k ≠ MediaStatus.unknown)) then
      { st with
          media := { st.media with
            seasons := st.media.seasons.set i
              ({ st.media.seasons.getD i dfltSeason with
                  status := MediaStatus.deleted, status4k := MediaStatus.deleted }) },
          events := st.events ++
            [⟨StatusTarget.seasonStd i, (st.media.seasons.getD i dfltSeason).status,
              MediaStatus.deleted⟩,
             ⟨StatusTarget.season4k i, (st.media.seasons.getD i dfltSeason).status4k,
              MediaStatus.deleted⟩] }
    else
      (if R.found = true then
        { st with
            media := R.media, plexCache := R.plexCache, cache := R.cache,
            writes := st.writes ++ R.writes, events := st.events ++ R.events }
      else
        let upd : MediaRec × List StatusEv :=
          if ((R.media.seasons.getD i dfltSeason).status ≠ MediaStatus.deleted ∨
              (R.media.seasons.getD i dfltSeason).status4k ≠ MediaStatus.deleted) ∧
             ((R.media.seasons.getD i dfltSeason).status ≠ MediaStatus.unknown ∨
              (R.media.seasons.getD i dfltSeason).status4k ≠ MediaStatus.unknown) then
            ({ R.media with
                seasons := (R.media.seasons.set i
                  ({ R.media.seasons.getD i dfltSeason with
                      status := MediaStatus.deleted,
                      status4k := MediaStatus.deleted })).set
                  (R.media.seasons.length - 1)
                  ({ R.media.seasons.getD i dfltSeason with
                      status := MediaStatus.deleted,
                      status4k := MediaStatus.deleted }) },
             [⟨StatusTarget.seasonStd i, (R.media.seasons.getD i dfltSeason).status,
               MediaStatus.deleted⟩,
              ⟨StatusTarget.season4k i, (R.media.seasons.getD i dfltSeason).status4k,
               MediaStatus.deleted⟩])
          else (R.media, [])
        { media := upd.1, didDeleteSeasons := true, plexCache := R.plexCache,
          cache := R.cache, writes := st.writes ++ R.writes,
          events := st.events ++ R.events ++ upd.2 }))) :
    loopCore n exB m2 A := by
  obtain ⟨⟨hstep, hlossS, hloss4, hpaS, hpa4, hddW, htermc⟩, hsafe⟩ := hf
  have hjst : ∀ {k : Nat}, k < n → k < st.media.seasons.length :=
    fun hk => lt_of_lt_of_le (lt_of_lt_of_le hk hn) hstep.2.2.1
  have hlt : i < st.media.seasons.length := hjst hi
  by_cases hcas : (!exB) = true ∧
      (((st.media.seasons.getD i dfltSeason).status ≠ MediaStatus.deleted ∨
        (st.media.seasons.getD i dfltSeason).status4k ≠ MediaStatus.deleted) ∧
       ((st.media.seasons.getD i dfltSeason).status ≠ MediaStatus.unknown ∨
        (st.media.seasons.getD i dfltSeason).status4k ≠ MediaStatus.unknown))
  · -- the whole-show cascade
    have hexF : exB = false := by
      have h := hcas.1
      revert h
      cases exB <;> simp
    obtain ⟨htS, ht4⟩ := htermc hexF
    have hd : A.didDeleteSeasons = st.didDeleteSeasons := by
      rw [hA, if_pos hcas]
    have hsm : A.media.seasons = st.media.seasons.set i
        ({ st.media.seasons.getD i dfltSeason with
            status := MediaStatus.deleted, status4k := MediaStatus.deleted }) := by
      rw [hA, if_pos hcas]
    have hst : A.media.status = st.media.status := by
      rw [hA, if_pos hcas]
    have hst4 : A.media.status4k = st.media.status4k := by
      rw [hA, if_pos hcas]
    refine ⟨?_, ?_, ?_, ?_, ?_, ?_, ?_⟩
    · refine ⟨?_, ?_, ?_, ?_⟩
      · rw [hst]
        exact hstep.1
      · rw [hst4]
        exact hstep.2.1
      · rw [hsm]
        simpa using hstep.2.2.1
      · intro j hj
        have hj2 : j < st.media.seasons.length := lt_of_lt_of_le hj hstep.2.2.1
        rw [hsm]
        by_cases hij : i = j
        · subst hij
          rw [getD_set_self _ _ _ hj2]
          refine seasonStep_trans (hstep.2.2.2 i hj) ⟨rfl, Or.inr rfl, Or.inr rfl, ?_⟩
          intro hu hu4
          rcases hcas.2.2 with h | h
          · exact absurd hu h
          · exact absurd hu4 h
        · rw [getD_set_ne _ _ _ _ hij]
          exact hstep.2.2.2 j hj
    · intro _
      refine Or.inr ?_
      rw [hst]
      exact isTerm_not_avail htS
    · intro _
      refine Or.inr ?_
      rw [hst4]
      exact isTerm_not_avail ht4
    · intro hp
      rw [hst] at hp
      exact absurd hp (isTerm_not_pa htS)
    · intro hp
      rw [hst4] at hp
      exact absurd hp (isTerm_not_pa ht4)
    · intro h
      rw [hd] at h
      obtain ⟨j, hj, t1, t2⟩ := hddW h
      refine ⟨j, hj, ?_, ?_⟩ <;> rw [hsm] <;>
        rcases getD_set_cases st.media.seasons i j
          ({ st.media.seasons.getD i dfltSeason with
              status := MediaStatus.deleted, status4k := MediaStatus.deleted }) with he | he <;>
        rw [he]
      · exact t1
      · exact Or.inl rfl
      · exact t2
      · exact Or.inl rfl
    · intro he
      obtain ⟨a, b⟩ := htermc he
      exact ⟨by rw [hst]; exact a, by rw [hst4]; exact b⟩
  · -- the per-season check
    have hre := seasonExists_facts env ss st.media i st.plexCache st.cache
    rw [← hR] at hre
    obtain ⟨rstep, rfr, rpaS, rpa4, rlossS, rloss4, rnf⟩ := hre
    by_cases hfound : R.found = true
    · -- season found: adopt the seasonExists record
      have hd : A.didDeleteSeasons = st.didDeleteSeasons := by
        rw [hA, if_neg hcas, if_pos hfound]
      have hsm : A.media = R.media := by
        rw [hA, if_neg hcas, if_pos hfound]
      refine ⟨?_, ?_, ?_, ?_, ?_, ?_, ?_⟩
      · rw [hsm]
        exact mediaStep_trans hstep rstep
      · rintro ⟨k, hk, h1, h2⟩
        rw [hsm] at h2
        by_cases hmid : isTerm (st.media.seasons.getD k dfltSeason).status
        · rcases hlossS ⟨k, hk, h1, hmid⟩ with hl | hr
          · exact Or.inl (by rw [hd]; exact hl)
          · refine Or.inr ?_
            rw [hsm]
            exact stTr_not_avail rstep.1 hr
        · refine Or.inr ?_
          rw [hsm]
          exact rlossS k (hjst hk) hmid h2
      · rintro ⟨k, hk, h1, h2⟩
        rw [hsm] at h2
        by_cases hmid : isTerm (st.media.seasons.getD k dfltSeason).status4k
        · rcases hloss4 ⟨k, hk, h1, hmid⟩ with hl | hr
          · exact Or.inl (by rw [hd]; exact hl)
          · refine Or.inr ?_
            rw [hsm]
            exact stTr_not_avail rstep.2.1 hr
        · refine Or.inr ?_
          rw [hsm]
          exact rloss4 k (hjst hk) hmid h2
      · intro hp
        rw [hsm] at hp
        rcases rpaS hp with hl | ⟨hav, hlti, ht⟩
        · rcases hpaS hl with h | ⟨k, hk, tk⟩
          · exact Or.inl h
          · refine Or.inr ⟨k, hk, ?_⟩
            rw [hsm]
            exact seasonStep_isTerm_status (rstep.2.2.2 k (hjst hk)) tk
        · refine Or.inr ⟨i, hi, ?_⟩
          rw [hsm]
          exact ht
      · intro hp
        rw [hsm] at hp
        rcases rpa4 hp with hl | ⟨hav, hlti, ht⟩
        · rcases hpa4 hl with h | ⟨k, hk, tk⟩
          · exact Or.inl h
          · refine Or.inr ⟨k, hk, ?_⟩
            rw [hsm]
            exact seasonStep_isTerm_status4k (rstep.2.2.2 k (hjst hk)) tk
        · refine Or.inr ⟨i, hi, ?_⟩
          rw [hsm]
          exact ht
      · intro h
        rw [hd] at h
        obtain ⟨k, hk, t1, t2⟩ := hddW h
        exact ⟨k, hk,
          by rw [hsm]; exact seasonStep_isTerm_status (rstep.2.2.2 k (hjst hk)) t1,
          by rw [hsm]; exact seasonStep_isTerm_status4k (rstep.2.2.2 k (hjst hk)) t2⟩
      · intro he
        obtain ⟨a, b⟩ := htermc he
        exact ⟨by rw [hsm]; exact stTr_isTerm rstep.1 a,
          by rw [hsm]; exact stTr_isTerm rstep.2.1 b⟩
    · -- season missing: deletion plus alias rewrite
      have hnff : R.found = false := by
        revert hfound
        cases R.found <;> simp
      have hmed := rnf hnff
      have hrs : R.media.seasons =
          st.media.seasons ++ [st.media.seasons.getD i dfltSeason] := by
        rw [hmed]
      have hrst : R.media.status = st.media.status := by
        rw [hmed]
      have hrst4 : R.media.status4k = st.media.status4k := by
        rw [hmed]
      have hrlen : R.media.seasons.length = st.media.seasons.length + 1 := by
        rw [hrs]
        simp
      have e_cur : R.media.seasons.getD i dfltSeason
          = st.media.seasons.getD i dfltSeason := by
        rw [hrs]
        exact getD_append_left _ _ _ hlt
      have hK : R.media.seasons.length - 1 = st.media.seasons.length := by
        simp [hrlen]
      by_cases hug : ((R.media.seasons.getD i dfltSeason).status ≠ MediaStatus.deleted ∨
          (R.media.seasons.getD i dfltSeason).status4k ≠ MediaStatus.deleted) ∧
         ((R.media.seasons.getD i dfltSeason).status ≠ MediaStatus.unknown ∨
          (R.media.seasons.getD i dfltSeason).status4k ≠ MediaStatus.unknown)
      · -- season record deleted, both variants
        have hd : A.didDeleteSeasons = true := by
          rw [hA, if_neg hcas, if_neg hfound]
        have hsm : A.media.seasons = (R.media.seasons.set i
            ({ R.media.seasons.getD i dfltSeason with
                status := MediaStatus.deleted, status4k := MediaStatus.deleted })).set
            (R.media.seasons.length - 1)
            ({ R.media.seasons.getD i dfltSeason with
                status := MediaStatus.deleted, status4k := MediaStatus.deleted }) := by
          rw [hA, if_neg hcas, if_neg hfound]
          simp only [if_pos hug]
        have hst : A.media.status = st.media.status := by
          rw [hA, if_neg hcas, if_neg hfound]
          simp only [if_pos hug]
          exact hrst
        have hst4 : A.media.status4k = st.media.status4k := by
          rw [hA, if_neg hcas, if_neg hfound]
          simp only [if_pos hug]
          exact hrst4
        rw [e_cur, hK, hrs] at hsm
        have hug2 := hug.2
        rw [e_cur] at hug2
        have hgi : A.media.seasons.getD i dfltSeason
            = { st.media.seasons.getD i dfltSeason with
                status := MediaStatus.deleted, status4k := MediaStatus.deleted } := by
          rw [hsm]
          rw [getD_set_ne _ _ _ _ (by omega : st.media.seasons.length ≠ i)]
          exact getD_set_self _ _ _ (by simp; omega)
        have hgne : ∀ k, k < st.media.seasons.length → i ≠ k →
            A.media.seasons.getD k dfltSeason = st.media.seasons.getD k dfltSeason := by
          intro k hk hik
          rw [hsm]
          rw [getD_set_ne _ _ _ _ (by omega : st.media.seasons.length ≠ k)]
          rw [getD_set_ne _ _ _ _ hik]
          exact getD_append_left _ _ _ hk
        refine ⟨?_, fun _ => Or.inl hd, fun _ => Or.inl hd, ?_, ?_, ?_, ?_⟩
        · refine mediaStep_trans hstep ⟨?_, ?_, ?_, ?_⟩
          · rw [hst]
            exact stTr_refl _
          · rw [hst4]
            exact stTr_refl _
          · rw [hsm]
            simp
          · intro k hk
            by_cases hik : i = k
            · subst hik
              rw [hgi]
              refine ⟨rfl, Or.inr rfl, Or.inr rfl, ?_⟩
              intro hu hu4
              rcases hug2 with h | h
              · exact absurd hu h
              · exact absurd hu4 h
            · rw [hgne k hk hik]
              exact seasonStep_refl _
        · intro hp
          rw [hst] at hp
          rcases hpaS hp with h | ⟨k, hk, tk⟩
          · exact Or.inl h
          · refine Or.inr ⟨k, hk, ?_⟩
            by_cases hik : i = k
            · subst hik
              rw [hgi]
              exact Or.inl rfl
            · rw [hgne k (hjst hk) hik]
              exact tk
        · intro hp
          rw [hst4] at hp
          rcases hpa4 hp with h | ⟨k, hk, tk⟩
          · exact Or.inl h
          · refine Or.inr ⟨k, hk, ?_⟩
            by_cases hik : i = k
            · subst hik
              rw [hgi]
              exact Or.inl rfl
            · rw [hgne k (hjst hk) hik]
              exact tk
        · intro _
          exact ⟨i, hi, by rw [hgi]; exact Or.inl rfl, by rw [hgi]; exact Or.inl rfl⟩
        · intro he
          obtain ⟨a, b⟩ := htermc he
          exact ⟨by rw [hst]; exact a, by rw [hst4]; exact b⟩
      · -- season record already pair-terminal: no write to it
        have hd : A.didDeleteSeasons = true := by
          rw [hA, if_neg hcas, if_neg hfound]
        have hsm : A.media = R.media := by
          rw [hA, if_neg hcas, if_neg hfound]
          simp only [if_neg hug]
        have hterm2 : isTerm (R.media.seasons.getD i dfltSeason).status ∧
            isTerm (R.media.seasons.getD i dfltSeason).status4k := by
          rcases Decidable.not_and_iff_or_not.mp hug with h | h
          · rw [not_or, not_ne_iff, not_ne_iff] at h
            exact ⟨Or.inl h.1, Or.inl h.2⟩
          · rw [not_or, not_ne_iff, not_ne_iff] at h
            exact ⟨Or.inr h.1, Or.inr h.2⟩
        refine ⟨?_, fun _ => Or.inl hd, fun _ => Or.inl hd, ?_, ?_, ?_, ?_⟩
        · rw [hsm]
          exact mediaStep_trans hstep rstep
        · intro hp
          rw [hsm, hrst] at hp
          rcases hpaS hp with h | ⟨k, hk, tk⟩
          · exact Or.inl h
          · refine Or.inr ⟨k, hk, ?_⟩
            rw [hsm]
            exact seasonStep_isTerm_status (rstep.2.2.2 k (hjst hk)) tk
        · intro hp
          rw [hsm, hrst4] at hp
          rcases hpa4 hp with h | ⟨k, hk, tk⟩
          · exact Or.inl h
          · refine Or.inr ⟨k, hk, ?_⟩
            rw [hsm]
            exact seasonStep_isTerm_status4k (rstep.2.2.2 k (hjst hk)) tk
        · intro _
          exact ⟨i, hi, by rw [hsm]; exact hterm2.1, by rw [hsm]; exact hterm2.2⟩
        · intro he
          obtain ⟨a, b⟩ := htermc he
          exact ⟨by rw [hsm, hrst]; exact a, by rw [hsm, hrst4]; exact b⟩

set_option maxHeartbeats 2000000 in
/-- One full season-loop iteration preserves the loop invariant. -/
theorem seasonIter_facts (env : Env) (ss : List SonarrServer) (n : Nat) (exB : Bool)
    (m2 : MediaRec) (st : SeasonLoopSt) (i : Nat)
    (hf : loopFacts n exB m2 st) (hi : i < n) (hn : n ≤ m2.seasons.length) :
    loopFacts n exB m2 (seasonIter env ss exB st i) := by
  simp only [seasonIter]
  exact demoteWrap_facts n exB m2 _ _
    (seasonMain_facts env ss n exB m2 st i hf hi hn _ rfl _ rfl) rfl

/-- The whole season loop preserves the loop invariant. -/
theorem foldl_seasonIter_facts (env : Env) (ss : List SonarrServer) (n : Nat)
    (exB : Bool) (m2 : MediaRec) (l : List Nat) (st : SeasonLoopSt)
    (hl : ∀ k ∈ l, k < n) (hn : n ≤ m2.seasons.length)
    (hf : loopFacts n exB m2 st) :
    loopFacts n exB m2 (l.foldl (seasonIter env ss exB) st) := by
  induction l generalizing st with
  | nil => exact hf
  | cons a rest ih =>
    simp only [List.foldl_cons]
    exact ih _ (fun k hk => hl k (List.mem_cons_of_mem a hk))
      (seasonIter_facts env ss n exB m2 st a hf (hl a (List.mem_cons_self a rest)) hn)

theorem mediaMissingUpdate_terminal (m : MediaRec) :
    isTerm (mediaMissingUpdate m).1.status ∧ isTerm (mediaMissingUpdate m).1.status4k := by
  simp only [mediaMissingUpdate]
  split
  case isTrue hg =>
    constructor
    · by_cases hu : m.status = .unknown <;> simp [hu, isTerm]
    · by_cases hu : m.status4k = .unknown <;> simp [hu, isTerm]
  case isFalse hg =>
    rw [Decidable.not_and_iff_or_not, not_or, not_or, not_ne_iff, not_ne_iff,
      not_ne_iff, not_ne_iff] at hg
    rcases hg with ⟨h1, h2⟩ | ⟨h1, h2⟩ <;> exact ⟨by simp [isTerm, h1], by simp [isTerm, h2]⟩

set_option maxHeartbeats 2000000 in
/-- The record-level facts of one `run()` loop body: processing is a
`mediaStep`; the parent reaches PARTIALLY_AVAILABLE only from
PARTIALLY_AVAILABLE or with a terminal same-variant season at an original
position; and a season variant newly driven terminal moves the parent
same-variant status off AVAILABLE. -/
theorem processMedia_facts (env : Env) (rs : List RadarrServer) (ss : List SonarrServer)
    (m0 : MediaRec) (pc : PlexSeasonsCache) (sc : SonarrSeasonsCache) :
    mediaStep m0 (processMedia env rs ss m0 pc sc).media ∧
    ((processMedia env rs ss m0 pc sc).media.status = .partiallyAvailable →
       m0.status = .partiallyAvailable ∨
       ∃ j, j < m0.seasons.length ∧
         isTerm (((processMedia env rs ss m0 pc sc).media.seasons.getD j
           dfltSeason).status)) ∧
    ((processMedia env rs ss m0 pc sc).media.status4k = .partiallyAvailable →
       m0.status4k = .partiallyAvailable ∨
       ∃ j, j < m0.seasons.length ∧
         isTerm (((processMedia env rs ss m0 pc sc).media.seasons.getD j
           dfltSeason).status4k)) ∧
    (∀ j, j < m0.seasons.length →
       ¬ isTerm ((m0.seasons.getD j dfltSeason).status) →
       isTerm (((processMedia env rs ss m0 pc sc).media.seasons.getD j
         dfltSeason).status) →
       (processMedia env rs ss m0 pc sc).media.status ≠ .available) ∧
    (∀ j, j < m0.seasons.length →
       ¬ isTerm ((m0.seasons.getD j dfltSeason).status4k) →
       isTerm (((processMedia env rs ss m0 pc sc).media.seasons.getD j
         dfltSeason).status4k) →
       (processMedia env rs ss m0 pc sc).media.status4k ≠ .available) := by
  simp only [processMedia]
  generalize hex : mediaExists env rs ss m0 sc = EX
  have hph : phaseOk m0 EX.media := by
    rw [← hex]
    exact mediaExists_phase env rs ss m0 sc
  generalize hm2 : (if (!EX.found) = true then mediaMissingUpdate EX.media
      else (EX.media, ([] : List StatusEv))).1 = M2
  have hph2 : phaseOk m0 M2 := by
    rw [← hm2]
    by_cases hfd : (!EX.found) = true
    · rw [if_pos hfd]
      exact phaseOk_trans hph (mediaMissingUpdate_phase EX.media)
    · rw [if_neg hfd]
      exact hph
  have hterm2 : EX.found = false → isTerm M2.status ∧ isTerm M2.status4k := by
    intro hfd
    rw [← hm2, if_pos (by rw [hfd]; rfl)]
    exact mediaMissingUpdate_terminal EX.media
  generalize hlp : (if M2.mediaType = MediaType.tv then
      (List.range M2.seasons.length).foldl (seasonIter env ss EX.found)
        ⟨M2, false, pc, EX.cache, [], []⟩
    else ⟨M2, false, pc, EX.cache, [], []⟩) = LP
  have hloop : loopFacts M2.seasons.length EX.found M2 LP := by
    rw [← hlp]
    by_cases htv : M2.mediaType = MediaType.tv
    · rw [if_pos htv]
      exact foldl_seasonIter_facts env ss _ _ _ _ _
        (fun k hk => List.mem_range.mp hk) (le_refl _)
        (loopFacts_base _ _ _ _ _ hterm2)
    · rw [if_neg htv]
      exact loopFacts_base _ _ _ _ _ hterm2
  obtain ⟨⟨lstep, llossS, lloss4, lpaS, lpa4, lddW, lterm⟩, lsafe⟩ := hloop
  obtain ⟨pstep, plen, ppaS, ppa4, plossS, ploss4⟩ := hph2
  refine ⟨mediaStep_trans pstep lstep, ?_, ?_, ?_, ?_⟩
  · intro hp
    rcases lpaS hp with h | ⟨j, hj, t⟩
    · exact Or.inl (ppaS h)
    · exact Or.inr ⟨j, by rw [← plen]; exact hj, t⟩
  · intro hp
    rcases lpa4 hp with h | ⟨j, hj, t⟩
    · exact Or.inl (ppa4 h)
    · exact Or.inr ⟨j, by rw [← plen]; exact hj, t⟩
  · intro j hj h1 h2 heq
    by_cases hmid : isTerm ((M2.seasons.getD j dfltSeason).status)
    · exact absurd heq (stTr_not_avail lstep.1 (plossS j hj h1 hmid))
    · rcases llossS ⟨j, by rw [plen]; exact hj, hmid, h2⟩ with hdl | hne
      · exact absurd heq ((lsafe hdl).1)
      · exact absurd heq hne
  · intro j hj h1 h2 heq
    by_cases hmid : isTerm ((M2.seasons.getD j dfltSeason).status4k)
    · exact absurd heq (stTr_not_avail lstep.2.1 (ploss4 j hj h1 hmid))
    · rcases lloss4 ⟨j, by rw [plen]; exact hj, hmid, h2⟩ with hdl | hne
      · exact absurd heq ((lsafe hdl).2)
      · exact absurd heq hne

/-! ## C2: the terminal guard -/

/-- C2 (amended): a media variant status that is DELETED or UNKNOWN when
the record is loaded is never changed by processing the record; a season
variant status that is DELETED is never changed; and a season whose two
variant statuses are both UNKNOWN is untouched.  (The unamended claim is
refuted by `C2_counterexample`: a season's UNKNOWN variant paired with a
non-matching sibling variant is overwritten to DELETED.) -/
theorem C2_terminal_guard (env : Env) (rs : List RadarrServer) (ss : List SonarrServer)
    (m0 : MediaRec) (pc : PlexSeasonsCache) (sc : SonarrSeasonsCache) :
    (isTerm m0.status →
       (processMedia env rs ss m0 pc sc).media.status = m0.status) ∧
    (isTerm m0.status4k →
       (processMedia env rs ss m0 pc sc).media.status4k = m0.status4k) ∧
    (∀ j, j < m0.seasons.length →
       ((m0.seasons.getD j dfltSeason).status = .deleted →
          ((processMedia env rs ss m0 pc sc).media.seasons.getD j dfltSeason).status
            = .deleted) ∧
       ((m0.seasons.getD j dfltSeason).status4k = .deleted →
          ((processMedia env rs ss m0 pc sc).media.seasons.getD j dfltSeason).status4k
            = .deleted) ∧
       ((m0.seasons.getD j dfltSeason).status = .unknown →
        (m0.seasons.getD j dfltSeason).status4k = .unknown →
          (processMedia env rs ss m0 pc sc).media.seasons.getD j dfltSeason
            = m0.seasons.getD j dfltSeason)) := by
  obtain ⟨hstep, _, _, _, _⟩ := processMedia_facts env rs ss m0 pc sc
  refine ⟨fun h => stTr_term hstep.1 h, fun h => stTr_term hstep.2.1 h, ?_⟩
  intro j hj
  have hs := hstep.2.2.2 j hj
  exact ⟨fun h => seasonStep_deleted_status hs h,
    fun h => seasonStep_deleted_status4k hs h,
    fun h1 h2 => hs.2.2.2 h1 h2⟩

/-- Sonarr servers for the C2 scenario: a standard and a 4k server whose
series lookups both throw. -/
def ssC2 : List SonarrServer :=
  [⟨1, false, true, fun _ => none⟩, ⟨2, true, true, fun _ => none⟩]

/-- Environment for the C2 scenario: no Plex data, saves succeed. -/
def envC2 : Env :=
  ⟨[], ssC2, fun _ => false, fun _ => none, true, none, fun _ => false⟩

/-- A series whose single season has its standard variant UNKNOWN (a
terminal status) next to an AVAILABLE 4k variant; both its external ids
are configured so the failing lookups judge the record missing. -/
def mC2 : MediaRec :=
  { id := 21, tmdbId := 210, mediaType := .tv,
    status := .available, status4k := .available,
    serviceId := none, serviceId4k := none,
    externalServiceId := some 5, externalServiceId4k := some 6,
    externalServiceSlug := none, externalServiceSlug4k := none,
    ratingKey := none, ratingKey4k := none,
    seasons := [⟨1, .unknown, .available⟩] }

/-- C2 refutation: the whole-show cascade of `run()` (lines 90-107) guards
per season pair, not per variant, so the UNKNOWN standard variant of
`mC2`'s season is overwritten to DELETED. -/
theorem C2_counterexample :
    (mC2.seasons.getD 0 dfltSeason).status = .unknown ∧
    ((processMedia envC2 [] ssC2 mC2 [] []).media.seasons.getD 0 dfltSeason).status
      = .deleted := by
  decide

/-- A record exercising the preserved part of the terminal guard: a
terminal (UNKNOWN) 4k media status and a DELETED standard season variant. -/
def mC2w : MediaRec :=
  { id := 22, tmdbId := 220, mediaType := .tv,
    status := .available, status4k := .unknown,
    serviceId := none, serviceId4k := none,
    externalServiceId := some 5, externalServiceId4k := some 6,
    externalServiceSlug := none, externalServiceSlug4k := none,
    ratingKey := none, ratingKey4k := none,
    seasons := [⟨1, .deleted, .available⟩] }

theorem C2_terminal_guard_witness :
    (processMedia envC2 [] ssC2 mC2w [] []).media.status4k = MediaStatus.unknown ∧
    ((processMedia envC2 [] ssC2 mC2w [] []).media.seasons.getD 0 dfltSeason).status
      = MediaStatus.deleted :=
  ⟨((C2_terminal_guard envC2 [] ssC2 mC2w [] []).2.1 (Or.inr rfl)).trans rfl,
   ((C2_terminal_guard envC2 [] ssC2 mC2w [] []).2.2 0 (by decide)).1 (by decide)⟩

/-! ## C4: season-driven demotion -/

/-- C4 (amended): parent variant statuses move only along `stTr` (so an
already PARTIALLY_AVAILABLE or DELETED parent is never demoted);
PARTIALLY_AVAILABLE is reached only from AVAILABLE or PARTIALLY_AVAILABLE;
a demotion from AVAILABLE to PARTIALLY_AVAILABLE comes with a season at an
original position whose same-variant status ends terminal; and a season
variant newly driven terminal always moves an AVAILABLE parent same-variant
status off AVAILABLE.  (The unamended claim's frame part - "only that
variant's status is demoted", "the other variant of the parent is not
demoted by a season loss in one variant" - is refuted by
`C4_counterexample`.) -/
theorem C4_season_driven_demotion (env : Env) (rs : List RadarrServer)
    (ss : List SonarrServer) (m0 : MediaRec) (pc : PlexSeasonsCache)
    (sc : SonarrSeasonsCache) :
    stTr m0.status (processMedia env rs ss m0 pc sc).media.status ∧
    stTr m0.status4k (processMedia env rs ss m0 pc sc).media.status4k ∧
    ((processMedia env rs ss m0 pc sc).media.status = .partiallyAvailable →
       m0.status = .available ∨ m0.status = .partiallyAvailable) ∧
    ((processMedia env rs ss m0 pc sc).media.status4k = .partiallyAvailable →
       m0.status4k = .available ∨ m0.status4k = .partiallyAvailable) ∧
    ((processMedia env rs ss m0 pc sc).media.status = .partiallyAvailable →
       m0.status = .available →
       ∃ j, j < m0.seasons.length ∧
         isTerm (((processMedia env rs ss m0 pc sc).media.seasons.getD j
           dfltSeason).status)) ∧
    ((processMedia env rs ss m0 pc sc).media.status4k = .partiallyAvailable →
       m0.status4k = .available →
       ∃ j, j < m0.seasons.length ∧
         isTerm (((processMedia env rs ss m0 pc sc).media.seasons.getD j
           dfltSeason).status4k)) ∧
    ((∃ j, j < m0.seasons.length ∧
        ¬ isTerm ((m0.seasons.getD j dfltSeason).status) ∧
        isTerm (((processMedia env rs ss m0 pc sc).media.seasons.getD j
          dfltSeason).status)) →
       (processMedia env rs ss m0 pc sc).media.status ≠ .available) ∧
    ((∃ j, j < m0.seasons.length ∧
        ¬ isTerm ((m0.seasons.getD j dfltSeason).status4k) ∧
        isTerm (((processMedia env rs ss m0 pc sc).media.seasons.getD j
          dfltSeason).status4k)) →
       (processMedia env rs ss m0 pc sc).media.status4k ≠ .available) := by
  obtain ⟨hstep, hpa, hpa4, hloss, hloss4⟩ := processMedia_facts env rs ss m0 pc sc
  refine ⟨hstep.1, hstep.2.1, fun hp => stTr_pa_source hstep.1 hp,
    fun hp => stTr_pa_source hstep.2.1 hp, ?_, ?_, ?_, ?_⟩
  · intro hp hav
    rcases hpa hp with h | hw
    · exact absurd (hav.symm.trans h) (by simp)
    · exact hw
  · intro hp hav
    rcases hpa4 hp with h | hw
    · exact absurd (hav.symm.trans h) (by simp)
    · exact hw
  · rintro ⟨j, hj, h1, h2⟩
    exact hloss j hj h1 h2
  · rintro ⟨j, hj, h1, h2⟩
    exact hloss4 j hj h1 h2

/-- Sonarr servers for the C4 scenario: the standard server knows the
series (five episode files) but lists season 1 with zero files; the 4k
server's lookup throws. -/
def ssC4 : List SonarrServer :=
  [⟨1, false, true, fun e => if e == 10 then some ⟨⟨5⟩, [⟨1, some ⟨0⟩⟩]⟩ else none⟩,
   ⟨2, true, true, fun _ => none⟩]

/-- Environment for the C4 scenario. -/
def envC4 : Env :=
  ⟨[], ssC4, fun _ => false, fun _ => none, true, none, fun _ => false⟩

/-- A series whose parent standard status is AVAILABLE while its single
season's standard variant is already DELETED and only the 4k season
variant is still AVAILABLE; the parent 4k status is DELETED. -/
def mC4 : MediaRec :=
  { id := 41, tmdbId := 410, mediaType := .tv,
    status := .available, status4k := .deleted,
    serviceId := none, serviceId4k := none,
    externalServiceId := some 10, externalServiceId4k := some 11,
    externalServiceSlug := none, externalServiceSlug4k := none,
    ratingKey := none, ratingKey4k := none,
    seasons := [⟨1, .deleted, .available⟩] }

/-- C4 refutation of the frame part: processing `mC4` demotes the parent
STANDARD status from AVAILABLE to PARTIALLY_AVAILABLE although the
standard variant of its season does not change in this run (it was already
DELETED); the only season variant lost in this run is the 4k one.  The
didDeleteSeasons flag raised by the season-missing branch triggers a
demotion of every AVAILABLE parent variant, not just the variant that lost
a season. -/
theorem C4_counterexample :
    mC4.status = .available ∧
    (mC4.seasons.getD 0 dfltSeason).status = .deleted ∧
    (mC4.seasons.getD 0 dfltSeason).status4k = .available ∧
    ((processMedia envC4 [] ssC4 mC4 [] []).media.seasons.getD 0 dfltSeason).status
      = (mC4.seasons.getD 0 dfltSeason).status ∧
    ((processMedia envC4 [] ssC4 mC4 [] []).media.seasons.getD 0 dfltSeason).status4k
      = .deleted ∧
    (processMedia envC4 [] ssC4 mC4 [] []).media.status = .partiallyAvailable := by
  decide

theorem C4_season_driven_demotion_witness :
    ∃ j, j < mC4.seasons.length ∧
      isTerm (((processMedia envC4 [] ssC4 mC4 [] []).media.seasons.getD j
        dfltSeason).status) :=
  (C4_season_driven_demotion envC4 [] ssC4 mC4 [] []).2.2.2.2.1 (by decide) (by decide)

end AvailSync
